import Mathlib

/-!
Video assembly pipeline of `backend/server.js`.

A shallow embedding of the backend of the TikTok video generator and the
properties of its specification, claim by claim.

Conventions of the embedding:

* JavaScript strings are `String`; the string primitives the backend uses
  (`includes`, `startsWith`, `split`, `replace`, `trim`) are written out as
  structural functions on the list of characters.
* JavaScript numbers that the timing code computes are rationals.  For the
  segment counts the endpoint can pass (`videoUrls.slice(0, 4)`, at least one
  URL) every value involved (`8`, `6.25` and their small multiples) is
  exactly representable as a double, so rational arithmetic agrees with the
  floating-point arithmetic of the runtime there.
* External services (text generation, stock search, download, speech
  synthesis, the render engine) are oracles passed as arguments.
* The file system is an explicit list of files that is threaded through the
  effectful functions.
-/

namespace TiktokGen

/-! ## Timing (`createVideoWithSubtitles`, lines 240-249) -/

/-- `Math.min(8, 25 / downloadedFiles.length)`.  In JavaScript `25 / 0` is
`Infinity`, so the minimum is `8` for an empty list. -/
def segmentDuration (n : Nat) : ℚ :=
  if n = 0 then 8 else min 8 (25 / (n : ℚ))

/-- Lower end of the window of segment `i`: `i * segmentDuration`. -/
def segmentStart (n i : Nat) : ℚ := (i : ℚ) * segmentDuration n

/-- Upper end of the window of segment `i`: `(i + 1) * segmentDuration`. -/
def segmentEnd (n i : Nat) : ℚ := ((i : ℚ) + 1) * segmentDuration n

/-- Sum of the lengths of the `n` segment windows. -/
def totalDuration (n : Nat) : ℚ :=
  ((List.range n).map (fun i => segmentEnd n i - segmentStart n i)).sum

/-! ## JavaScript string primitives -/

/-- `s.includes(pat)` on character lists: some suffix of `s` starts with
`pat`. -/
def jsIncludesChars : List Char → List Char → Bool
  | [], pat => pat.isEmpty
  | c :: cs, pat => pat.isPrefixOf (c :: cs) || jsIncludesChars cs pat

/-- `s.includes(pat)`. -/
def jsIncludes (s pat : String) : Bool := jsIncludesChars s.data pat.data

/-- `s.startsWith(pat)`. -/
def jsStartsWith (s pat : String) : Bool := pat.data.isPrefixOf s.data

/-- Truthiness of a value that is a string, `null` or `undefined`: only a
non-empty string is truthy. -/
def truthy : Option String → Bool
  | some s => s != ""
  | none => false

/-! ## Voice selection (lines 48-69 and 99-110) -/

/-- The object literal `VOICE_MAPPING`; `Object.entries` lists its keys in
insertion order, the key `default` included. -/
def VOICE_MAPPING : List (String × String) :=
  [ ("tech", "EXAVITQu4vr4xnSDxMaL"),
    ("gadgets", "pNInz6obpgDQGcFmaJgB"),
    ("electronics", "VR6AewLTigWG4xSOukaG"),
    ("automotive", "nPczCjzI2devNBz1zQrb"),
    ("sports", "EXAVITQu4vr4xnSDxMaL"),
    ("beauty", "21m00Tcm4TlvDq8ikWAM"),
    ("skincare", "21m00Tcm4TlvDq8ikWAM"),
    ("fashion", "LcfcDJNUP1GQjkzn1xUU"),
    ("clothing", "LcfcDJNUP1GQjkzn1xUU"),
    ("jewelry", "21m00Tcm4TlvDq8ikWAM"),
    ("food", "LcfcDJNUP1GQjkzn1xUU"),
    ("snacks", "LcfcDJNUP1GQjkzn1xUU"),
    ("health", "21m00Tcm4TlvDq8ikWAM"),
    ("fitness", "LcfcDJNUP1GQjkzn1xUU"),
    ("home", "LcfcDJNUP1GQjkzn1xUU"),
    ("kitchen", "21m00Tcm4TlvDq8ikWAM"),
    ("default", "21m00Tcm4TlvDq8ikWAM") ]

/-- The property access `VOICE_MAPPING.default`. -/
def VOICE_MAPPING_default : String :=
  (VOICE_MAPPING.lookup "default").getD ""

/-- The `for ... of Object.entries(VOICE_MAPPING)` loop with its early
`return`; `none` when the loop falls through. -/
def getVoiceForProduct_loop (product : String) : List (String × String) → Option String
  | [] => none
  | (category, voiceId) :: rest =>
    if jsIncludes product category then some voiceId
    else getVoiceForProduct_loop product rest

/-- `getVoiceForProduct(productName)`.  `toLowerCase` is the runtime's
`String.prototype.toLowerCase`, passed in. -/
def getVoiceForProduct (toLowerCase : String → String) (productName : String) : String :=
  match getVoiceForProduct_loop (toLowerCase productName) VOICE_MAPPING with
  | some voiceId => voiceId
  | none => VOICE_MAPPING_default

/-- Lower-casing of the ASCII letters only, one instance of `toLowerCase`
on ASCII labels. -/
def asciiToLowerCase (s : String) : String :=
  ⟨s.data.map (fun c => if 65 ≤ c.toNat ∧ c.toNat ≤ 90 then Char.ofNat (c.toNat + 32) else c)⟩

/-! ## Stock search (`getPexelsVideoForLine`, lines 112-137) -/

/-- One entry of `video_files`: its `quality` and its `link` (absent or
`null` is `none`). -/
structure VideoFile where
  quality : String
  link : Option String
deriving DecidableEq, Repr

/-- One entry of `res.data.videos`. -/
structure PexelsVideo where
  duration : Int
  video_files : List VideoFile
deriving DecidableEq, Repr

/-- The predicate of `videos.find`: `v.duration >= 10 && v.duration <= 30`. -/
def durationOk (v : PexelsVideo) : Bool :=
  decide (10 ≤ v.duration) && decide (v.duration ≤ 30)

/-- The predicate of `video_files.find`: `f.quality === 'hd' && f.link`. -/
def hdWithLink (f : VideoFile) : Bool :=
  f.quality == "hd" && truthy f.link

/-- Lines 125-132: what is returned for a response whose `data.videos` is
`videos` (`none` when the field is absent).  `undefined` and `null` are both
`none`. -/
def pickFromPage (videos : Option (List PexelsVideo)) : Option String :=
  match videos with
  | none => none
  | some vs =>
    if vs.length > 0 then
      match vs.find? durationOk with
      | some video =>
        match video.video_files.find? hdWithLink with
        | some f => f.link
        | none => none
      | none => none
    else none

/-- A candidate of the page qualifies: its duration is in `[10, 30]` and it
has an HD file with a locator. -/
def qualifies (v : PexelsVideo) : Bool :=
  durationOk v && v.video_files.any hdWithLink

/-! ## Script parsing and validation (lines 333-340) -/

/-- The line feed character. -/
def newline : Char := Char.ofNat 10

/-- `split` at line feeds on character lists; the empty text gives one
empty piece, as in JavaScript. -/
def jsSplitChars : List Char → List (List Char)
  | [] => [[]]
  | c :: cs =>
    match jsSplitChars cs with
    | [] => if c = newline then [[], []] else [[c]]
    | piece :: pieces =>
      if c = newline then [] :: piece :: pieces else (c :: piece) :: pieces

/-- `text.split(LF)`. -/
def jsSplitLines (text : String) : List String :=
  (jsSplitChars text.data).map String.mk

/-- White space and line terminators of ECMAScript, the characters `trim`
strips. -/
def isJsWhitespace (c : Char) : Bool :=
  let n := c.toNat
  n == 9 || n == 10 || n == 11 || n == 12 || n == 13 || n == 32 || n == 160 ||
  n == 5760 || (decide (8192 ≤ n) && decide (n ≤ 8202)) || n == 8232 || n == 8233 ||
  n == 8239 || n == 8287 || n == 12288 || n == 65279

/-- `s.trim()`. -/
def jsTrim (s : String) : String :=
  ⟨((s.data.dropWhile isJsWhitespace).reverse.dropWhile isJsWhitespace).reverse⟩

/-- `s.replace(pat, rep)` with a string pattern on character lists: only
the first occurrence is replaced. -/
def jsReplaceFirstChars (pat rep : List Char) : List Char → List Char
  | [] => if pat.isEmpty then rep else []
  | c :: cs =>
    if pat.isPrefixOf (c :: cs) then rep ++ (c :: cs).drop pat.length
    else c :: jsReplaceFirstChars pat rep cs

/-- `s.replace(pat, rep)` with a string pattern. -/
def jsReplaceFirst (s pat rep : String) : String :=
  ⟨jsReplaceFirstChars pat.data rep.data s.data⟩

/-- Lines 333-336: split at line feeds, keep the lines that start with `LINE:`,
remove the marker, trim, and keep at most four. -/
def parseScript (fullScript : String) : List String :=
  (((jsSplitLines fullScript).filter (fun line => jsStartsWith line "LINE:")).map
    (fun line => jsTrim (jsReplaceFirst line "LINE:" ""))).take 4

/-- Lines 333-340: the parsed lines, or the error thrown when fewer than
three are found. -/
def validateScript (fullScript : String) : Except String (List String) :=
  let textOverlays := parseScript fullScript
  if textOverlays.length < 3 then
    .error "AI failed to generate proper script format."
  else .ok textOverlays

/-! ## Caption escaping (line 248) -/

/-- The single quote. -/
def singleQuote : Char := Char.ofNat 39

/-- The double quote. -/
def doubleQuote : Char := Char.ofNat 34

/-- The backslash. -/
def backslash : Char := Char.ofNat 92

/-- `s.replace(/c/g, rep)` for a one-character pattern, on character lists. -/
def jsReplaceAllChar (c : Char) (rep : List Char) : List Char → List Char
  | [] => []
  | x :: xs => (if x = c then rep else [x]) ++ jsReplaceAllChar c rep xs

/-- Line 248 on character lists: every single quote is replaced by
backslash + single quote, then every double quote by backslash + double
quote. -/
def escapeChars (text : List Char) : List Char :=
  jsReplaceAllChar doubleQuote [backslash, doubleQuote]
    (jsReplaceAllChar singleQuote [backslash, singleQuote] text)

/-- Line 248: the text embedded in the `drawtext` filter for a caption. -/
def escapeText (text : String) : String := ⟨escapeChars text.data⟩

/-- A quote character, single or double. -/
def isQuote (c : Char) : Bool := c == singleQuote || c == doubleQuote

/-- Deletes the character that stands right before each quote. -/
def dropBeforeQuotes : List Char → List Char
  | [] => []
  | [c] => [c]
  | c :: q :: rest =>
    if isQuote q then q :: dropBeforeQuotes rest
    else c :: dropBeforeQuotes (q :: rest)

/-! ## Failure response (lines 464-488) -/

/-- The body of the response with status 500. -/
structure FailureBody where
  success : Bool
  message : String
  error : String
  timestamp : Nat
deriving DecidableEq, Repr

/-- User-facing text of the asset category. -/
def assetMessage : String :=
  "Could not find suitable videos. Try a different product or mood."

/-- User-facing text of the voice category. -/
def voiceMessage : String :=
  "Voice generation failed. Check ElevenLabs API key and quota."

/-- User-facing text of the script category. -/
def scriptMessage : String :=
  "Script generation failed. Try again with different parameters."

/-- User-facing text of the render category. -/
def renderMessage : String :=
  "Video processing failed. Check FFmpeg installation."

/-- Lines 469-480: the `errorMessage` built from `error.message`. -/
def classifyError (errorText : String) : String :=
  "Video generation failed: " ++
    (if jsIncludes errorText "Pexels" then assetMessage
     else if jsIncludes errorText "ElevenLabs" || jsIncludes errorText "voiceover" then
       voiceMessage
     else if jsIncludes errorText "AI" || jsIncludes errorText "script" then scriptMessage
     else if jsIncludes errorText "FFmpeg" then renderMessage
     else errorText)

/-- Lines 482-487: the body sent by the `catch` block. -/
def failureBody (errorText : String) (timestamp : Nat) : FailureBody :=
  { success := false, message := classifyError errorText, error := errorText,
    timestamp := timestamp }

/-- Line 392: the error thrown when no video was found. -/
def noVideosError : String := "Could not find any suitable videos for the product."

/-- Line 168: the error thrown by `generateVoice`, `detail` being the
provider's message. -/
def voiceoverError (detail : String) : String := "Failed to create voiceover: " ++ detail

/-! ## Render graph (`createVideoWithSubtitles`, lines 231-286) -/

/-- A stream label of the filter graph, written between square brackets in
the engine's syntax: `[i:v]`, `[i:a]`, `[v{i}base]`, `[v{i}]`, `[outv]`,
`[outa]`, `[voice]`, `[music]`. -/
inductive Label
  | videoIn (i : Nat)
  | audioIn (i : Nat)
  | segBase (i : Nat)
  | seg (i : Nat)
  | outv
  | outa
  | voice
  | music
deriving DecidableEq, Repr

/-- One filter of a chain, with the parameters the code writes into it. -/
inductive Filter
  | scale (w h : Nat) (forceOriginalAspectRatio : String)
  | crop (w h : Nat)
  | setsar (r : Nat)
  | trim (duration : ℚ)
  | drawtext (text : String) (enableFrom enableTo : ℚ)
  | copy
  | concat (n v a : Nat)
  | volume (level : String)
  | atrim (duration : Nat)
  | amix (inputs : Nat) (duration : String)
deriving DecidableEq, Repr

/-- A filter chain: input labels, filters separated by commas, output label. -/
structure Chain where
  inputs : List Label
  filters : List Filter
  output : Label
deriving DecidableEq, Repr

/-- What is handed to the render engine: the inputs in the order they were
added, the filter graph, the output options and the path given to `save`. -/
structure FfmpegCommand where
  inputs : List String
  complexFilter : List Chain
  outputOptions : List String
  output : String
deriving DecidableEq, Repr

/-- Text of a label. -/
def Label.render : Label → String
  | .videoIn i => "[" ++ toString i ++ ":v]"
  | .audioIn i => "[" ++ toString i ++ ":a]"
  | .segBase i => "[v" ++ toString i ++ "base]"
  | .seg i => "[v" ++ toString i ++ "]"
  | .outv => "[outv]"
  | .outa => "[outa]"
  | .voice => "[voice]"
  | .music => "[music]"

/-- Text of a filter as the template literals of the source write it; `num`
is the runtime's conversion of a number to text. -/
def Filter.render (num : ℚ → String) : Filter → String
  | .scale w h f =>
    "scale=" ++ toString w ++ ":" ++ toString h ++ ":force_original_aspect_ratio=" ++ f
  | .crop w h => "crop=" ++ toString w ++ ":" ++ toString h
  | .setsar r => "setsar=" ++ toString r
  | .trim d => "trim=duration=" ++ num d
  | .drawtext text a b =>
    "drawtext=text='" ++ text ++
      "':fontfile=/System/Library/Fonts/Arial.ttf:fontsize=60:fontcolor=white" ++
      ":borderw=3:bordercolor=black:x=(w-text_w)/2:y=h-200:enable='between(t," ++
      num a ++ "," ++ num b ++ ")'"
  | .copy => "copy"
  | .concat n v a => "concat=n=" ++ toString n ++ ":v=" ++ toString v ++ ":a=" ++ toString a
  | .volume level => "volume=" ++ level
  | .atrim d => "atrim=duration=" ++ toString d
  | .amix inputs duration => "amix=inputs=" ++ toString inputs ++ ":duration=" ++ duration

/-- Text of a chain. -/
def Chain.render (num : ℚ → String) (c : Chain) : String :=
  String.join (c.inputs.map Label.render) ++
    ",".intercalate (c.filters.map (Filter.render num)) ++ c.output.render

/-- The argument of `complexFilter`: the chains joined by semicolons. -/
def renderComplexFilter (num : ℚ → String) (chains : List Chain) : String :=
  ";".intercalate (chains.map (Chain.render num))

/-- The input added for an audio path, if the path is truthy. -/
def optionalInput : Option String → List String
  | some path => if path != "" then [path] else []
  | none => []

/-- Lines 244-252: the two chains pushed for segment `i` of `n`. -/
def segmentChains (n : Nat) (textOverlays : List String) (includeSubtitles : Bool)
    (i : Nat) : List Chain :=
  [ { inputs := [.videoIn i],
      filters := [.scale 1080 1920 "increase", .crop 1080 1920, .setsar 1,
                  .trim (segmentDuration n)],
      output := .segBase i },
    (if includeSubtitles && truthy textOverlays[i]? then
      { inputs := [.segBase i],
        filters := [.drawtext (escapeText (textOverlays[i]?.getD ""))
                      (segmentStart n i) (segmentEnd n i)],
        output := .seg i }
     else
      { inputs := [.segBase i], filters := [.copy], output := .seg i }) ]

/-- Line 256: the concat chain over `[v0] ... [v(n-1)]`. -/
def concatChain (n : Nat) : Chain :=
  { inputs := (List.range n).map Label.seg, filters := [.concat n 1 0], output := .outv }

/-- Lines 262-272: the audio chains pushed for the inputs starting at
`audioIndex`. -/
def audioChains (audioIndex : Nat) (voiceAudioPath customMusicPath : Option String) :
    List Chain :=
  if truthy voiceAudioPath && truthy customMusicPath then
    [ { inputs := [.audioIn audioIndex], filters := [.volume "1.0", .atrim 30],
        output := .voice },
      { inputs := [.audioIn (audioIndex + 1)], filters := [.volume "0.2", .atrim 30],
        output := .music },
      { inputs := [.voice, .music], filters := [.amix 2 "shortest"], output := .outa } ]
  else if truthy voiceAudioPath then
    [ { inputs := [.audioIn audioIndex], filters := [.volume "1.0", .atrim 30],
        output := .outa } ]
  else if truthy customMusicPath then
    [ { inputs := [.audioIn audioIndex], filters := [.volume "0.3", .atrim 30],
        output := .outa } ]
  else []

/-- Lines 262-272: the output options pushed together with the audio
chains. -/
def audioMaps (voiceAudioPath customMusicPath : Option String) : List String :=
  if truthy voiceAudioPath && truthy customMusicPath then ["-map", "[outa]"]
  else if truthy voiceAudioPath then ["-map", "[outa]"]
  else if truthy customMusicPath then ["-map", "[outa]"]
  else []

/-- Lines 231-286: the command built once the downloads are done. -/
def buildCommand (downloadedFiles textOverlays : List String)
    (voiceAudioPath customMusicPath : Option String) (includeSubtitles : Bool)
    (outputPath : String) : FfmpegCommand :=
  let n := downloadedFiles.length
  { inputs := downloadedFiles ++ optionalInput voiceAudioPath ++ optionalInput customMusicPath,
    complexFilter :=
      (List.range n).flatMap (segmentChains n textOverlays includeSubtitles) ++
        [concatChain n] ++ audioChains n voiceAudioPath customMusicPath,
    outputOptions :=
      ["-map", "[outv]"] ++ audioMaps voiceAudioPath customMusicPath ++
        ["-c:v", "libx264", "-preset", "fast", "-crf", "23", "-c:a", "aac", "-b:a", "192k",
         "-t", "30", "-movflags", "+faststart"],
    output := outputPath }

/-- A chain contains a mix filter. -/
def Chain.hasMix (c : Chain) : Bool :=
  c.filters.any (fun f => match f with
    | .amix _ _ => true
    | _ => false)

/-- A chain reads from or writes to an audio label. -/
def Chain.isAudio (c : Chain) : Bool :=
  c.output == .outa || c.output == .voice || c.output == .music

/-! ## World and external services -/

/-- The part of the machine the job changes: the files on disk (path and
content) and the queries sent to the stock search so far. -/
structure World where
  files : List (String × String)
  searches : List String
deriving DecidableEq, Repr

/-- `fsp.writeFile(path, content)`: creates or replaces the file. -/
def World.writeFile (w : World) (path content : String) : World :=
  { w with files := w.files.filter (fun f => f.1 != path) ++ [(path, content)] }

/-- `fsp.unlink(path).catch(() => {})`: removes the file if it is there. -/
def World.unlink (w : World) (path : String) : World :=
  { w with files := w.files.filter (fun f => f.1 != path) }

/-- Paths of the files on disk. -/
def World.paths (w : World) : List String := w.files.map Prod.fst

/-- The configuration and the external services of one run.  A service
answers with a value or with the message of the error it throws. -/
structure Env where
  /-- Result of `os.tmpdir()`. -/
  tmpdir : String
  /-- Value of `__dirname`. -/
  dirname : String
  /-- The runtime's `String.prototype.toLowerCase`. -/
  toLowerCase : String → String
  /-- Result of `generateEnhancedScript(productName, mood, language)`. -/
  generateEnhancedScript : String → String → String → Except String String
  /-- Result of `generateAiContent(prompt)`. -/
  generateAiContent : String → Except String String
  /-- Whether `pexelsApiKey` is set. -/
  pexelsApiKey : Bool
  /-- Response of the stock search for the `query` parameter: the field
  `data.videos`, or the error thrown by the request. -/
  pexelsSearch : String → Except String (Option (List PexelsVideo))
  /-- Response of the speech synthesis for a voice id and a text: the audio
  bytes, or the message of the error. -/
  textToSpeech : String → String → Except String String
  /-- Response of the download of a locator: the bytes, or the message of
  the error. -/
  download : String → Except String String
  /-- Outcome of the render engine for a command: the bytes of the output
  file on `end`, or the message passed to the `error` handler. -/
  ffmpegRun : FfmpegCommand → Except String String
  /-- Listing of the music directory, `none` when it does not exist. -/
  musicFiles : Option (List String)
  /-- Value of `Math.floor(Math.random() * n)`. -/
  random : Nat → Nat

/-- `path.join(dir, name)` for a directory without trailing separator. -/
def joinPath (dir name : String) : String := dir ++ "/" ++ name

/-- Lines 113-136 without the bookkeeping: the value returned or the error
thrown for a visual description. -/
def pexelsResult (env : Env) (visualDescription : String) : Except String (Option String) :=
  if env.pexelsApiKey = false then .error "Pexels API Key is missing."
  else
    match env.pexelsSearch (visualDescription ++ " aesthetic") with
    | .ok videos => .ok (pickFromPage videos)
    | .error _ => .ok none

/-- `getPexelsVideoForLine(visualDescription)`: the invocation is recorded
in the world. -/
def getPexelsVideoForLine (env : Env) (visualDescription : String) (w : World) :
    Except String (Option String) × World :=
  (pexelsResult env visualDescription,
   { w with searches := w.searches ++ [visualDescription] })

/-- `generateVoice(text, language, voiceId, timestamp)`, lines 139-170. -/
def generateVoice (env : Env) (text _language voiceId : String) (timestamp : Nat) (w : World) :
    Except String String × World :=
  match env.textToSpeech voiceId text with
  | .ok audio =>
    let tempFilePath := joinPath env.tmpdir ("voice-" ++ toString timestamp ++ ".mp3")
    (.ok tempFilePath, w.writeFile tempFilePath audio)
  | .error detail => (.error (voiceoverError detail), w)

/-! ## Composition (`createVideoWithSubtitles`, lines 210-317) -/

/-- Line 226: the path of the `i`-th downloaded clip. -/
def inputPath (env : Env) (i : Nat) : String :=
  joinPath env.tmpdir ("input-" ++ toString i ++ ".mp4")

/-- Lines 224-229: the download loop from index `i` on, with the files
downloaded so far.  A failed download leaves the loop with the error. -/
def downloadAll (env : Env) : List String → Nat → List String → World →
    Except String (List String) × World
  | [], _, downloadedFiles, w => (.ok downloadedFiles, w)
  | url :: rest, i, downloadedFiles, w =>
    match env.download url with
    | .ok data =>
      downloadAll env rest (i + 1) (downloadedFiles ++ [inputPath env i])
        (w.writeFile (inputPath env i) data)
    | .error message => (.error message, w)

/-- The bytes a successful download of `url` delivers. -/
def downloaded (env : Env) (url : String) : String :=
  match env.download url with
  | .ok data => data
  | .error _ => ""

/-- Value of a decimal numeral. -/
def decodeDigits (l : List Char) : Nat := l.foldl (fun a c => 10 * a + (c.toNat - 48)) 0

/-- Lines 298-300: the cleanup loop of the `end` handler. -/
def unlinkAll (files : List String) (w : World) : World :=
  files.foldl World.unlink w

/-- Lines 301-303: the voice file is removed when there is one. -/
def unlinkVoice (voiceAudioPath : Option String) (w : World) : World :=
  match voiceAudioPath with
  | some path => if path != "" then w.unlink path else w
  | none => w

/-- `createVideoWithSubtitles(...)`: the resolved value or the rejection
reason, and the world afterwards. -/
def createVideoWithSubtitles (env : Env) (videoUrls textOverlays : List String)
    (voiceAudioPath customMusicPath : Option String) (includeSubtitles : Bool)
    (timestamp : Nat) (w : World) : Except String String × World :=
  let outputFilename := "final-video-" ++ toString timestamp ++ ".mp4"
  let outputPath := joinPath (joinPath (joinPath env.dirname "public") "videos") outputFilename
  match downloadAll env videoUrls 0 [] w with
  | (.error message, w1) => (.error message, w1)
  | (.ok downloadedFiles, w1) =>
    let command := buildCommand downloadedFiles textOverlays voiceAudioPath customMusicPath
      includeSubtitles outputPath
    match env.ffmpegRun command with
    | .error message => (.error message, w1)
    | .ok video =>
      let w2 := w1.writeFile outputPath video
      let w3 := unlinkAll downloadedFiles w2
      let w4 := unlinkVoice voiceAudioPath w3
      (.ok ("/videos/" ++ outputFilename), w4)

/-! ## The endpoint (`app.post('/api/generate')`, lines 320-489) -/

/-- The fields read from `req.body`. -/
structure Request where
  productName : Option String
  productUrl : Option String
  mood : String
  language : String
  audioOption : String
  includeSubtitles : Bool
deriving DecidableEq, Repr

/-- The body of a successful response. -/
structure SuccessBody where
  videoUrl : String
  script : String
  scriptLines : List String
  voice : String
  mood : String
  subtitles : Bool
deriving DecidableEq, Repr

/-- What the endpoint answers. -/
inductive Response
  | success (body : SuccessBody)
  | failure (body : FailureBody)
deriving DecidableEq, Repr

/-- Line 325: `productName || productUrl || 'Amazing Product'`. -/
def finalProductName (req : Request) : String :=
  match req.productName with
  | some name => if name != "" then name else
    (match req.productUrl with
     | some url => if url != "" then url else "Amazing Product"
     | none => "Amazing Product")
  | none =>
    match req.productUrl with
    | some url => if url != "" then url else "Amazing Product"
    | none => "Amazing Product"

/-- Line 351: the prompt asking for the visual keywords of a script line. -/
def visualPrompt (line product : String) : String :=
  "Generate 3-4 keywords for Pexels video search that visually represent this product " ++
    "script line: \"" ++ line ++ "\" for \"" ++ product ++
    "\". Only keywords, no explanation."

/-- Lines 357-360: the four descriptions tried for a line, in order. -/
def lineQueries (visualDescription product mood : String) : List String :=
  [visualDescription, product ++ " " ++ mood, product ++ " product",
   mood ++ " lifestyle aesthetic"]

/-- The `||` chain over awaited searches: the first truthy result ends the
chain, a thrown error ends it too, and a chain of falsy results is falsy. -/
def orChain (env : Env) : List String → World → Except String (Option String) × World
  | [], w => (.ok none, w)
  | query :: rest, w =>
    match getPexelsVideoForLine env query w with
    | (.error message, w1) => (.error message, w1)
    | (.ok result, w1) => if truthy result then (.ok result, w1) else orChain env rest w1

/-- Lines 347-360: the resolution of one script line. -/
def resolveLine (env : Env) (product mood line : String) (w : World) :
    Except String (Option String) × World :=
  match env.generateAiContent (visualPrompt line product) with
  | .error message => (.error message, w)
  | .ok answer => orChain env (lineQueries (jsTrim answer) product mood) w

/-- The asset resolved for a script line: the outcome of `resolveLine`,
which does not depend on the world. -/
def lineAsset (env : Env) (product mood line : String) : Except String (Option String) :=
  (resolveLine env product mood line { files := [], searches := [] }).1

/-- The locator of a truthy search result. -/
def truthyValue : Option String → Option String
  | some url => if url != "" then some url else none
  | none => none

/-- The locator a line contributes to `videoUrls`, if any. -/
def lineLocator (env : Env) (product mood line : String) : Option String :=
  match lineAsset env product mood line with
  | .ok result => truthyValue result
  | .error _ => none

/-- `videoUrls.push(url)` guarded by `if (url)`. -/
def pushIfTruthy (videoUrls : List String) : Option String → List String
  | some url => if url != "" then videoUrls ++ [url] else videoUrls
  | none => videoUrls

/-- Lines 346-368: the loop over the script lines, with the locators
collected so far. -/
def resolveLines (env : Env) (product mood : String) : List String → List String → World →
    Except String (List String) × World
  | [], videoUrls, w => (.ok videoUrls, w)
  | line :: rest, videoUrls, w =>
    match resolveLine env product mood line w with
    | (.error message, w1) => (.error message, w1)
    | (.ok result, w1) => resolveLines env product mood rest (pushIfTruthy videoUrls result) w1

/-- Lines 373-379: the generic searches of the second pass. -/
def fallbackSearches (product mood : String) : List String :=
  [product ++ " unboxing", mood ++ " product showcase", "lifestyle " ++ mood,
   "modern aesthetic", "trending product"]

/-- `videoUrls.push(fallbackVideo)` guarded by
`fallbackVideo && !videoUrls.includes(fallbackVideo)`. -/
def pushIfNew (videoUrls : List String) : Option String → List String
  | some url => if url != "" && !videoUrls.contains url then videoUrls ++ [url] else videoUrls
  | none => videoUrls

/-- Lines 381-388: the loop of the second pass. -/
def fallbackLoop (env : Env) : List String → List String → World →
    Except String (List String) × World
  | [], videoUrls, w => (.ok videoUrls, w)
  | search :: rest, videoUrls, w =>
    if videoUrls.length ≥ 4 then (.ok videoUrls, w)
    else
      match getPexelsVideoForLine env search w with
      | (.error message, w1) => (.error message, w1)
      | (.ok result, w1) => fallbackLoop env rest (pushIfNew videoUrls result) w1

/-- Lines 344-393: per-line resolution, second pass, and the error thrown
when nothing was found. -/
def resolveAssets (env : Env) (product mood : String) (textOverlays : List String)
    (w : World) : Except String (List String) × World :=
  match resolveLines env product mood textOverlays [] w with
  | (.error message, w1) => (.error message, w1)
  | (.ok videoUrls, w1) =>
    match (if videoUrls.length < 3 then
            fallbackLoop env (fallbackSearches product mood) videoUrls w1
           else (.ok videoUrls, w1)) with
    | (.error message, w2) => (.error message, w2)
    | (.ok videoUrls2, w2) =>
      if videoUrls2.length = 0 then (.error noVideosError, w2) else (.ok videoUrls2, w2)

/-- `f.endsWith(suffix)`. -/
def jsEndsWith (s suffix : String) : Bool := suffix.data.isSuffixOf s.data

/-- Lines 406-422: the music file chosen for the job, if any. -/
def selectMusic (env : Env) (audioOption : String) : Option String :=
  if jsIncludes audioOption "music" then
    match env.musicFiles with
    | some listing =>
      let musicFiles := listing.filter (fun f =>
        jsEndsWith f ".wav" || jsEndsWith f ".mp3" || jsEndsWith f ".m4a")
      if musicFiles.length > 0 then
        (musicFiles[env.random musicFiles.length]?).map
          (joinPath (joinPath (joinPath env.dirname "public") "music"))
      else none
    | none => none
  else none

/-- Lines 424-429: the voice file synthesized for the job, if the audio
option asks for voice. -/
def prepareVoice (env : Env) (req : Request) (textOverlays : List String) (voiceId : String)
    (timestamp : Nat) (w : World) : Except String (Option String) × World :=
  if jsIncludes req.audioOption "voice" then
    match generateVoice env (". ".intercalate textOverlays ++ ".") req.language voiceId
        timestamp w with
    | (.ok path, w1) => (.ok (some path), w1)
    | (.error message, w1) => (.error message, w1)
  else (.ok none, w)

/-- Lines 328-462: the body of the `try` block. -/
def runJob (env : Env) (req : Request) (timestamp : Nat) (w : World) :
    Except String SuccessBody × World :=
  let product := finalProductName req
  match env.generateEnhancedScript product req.mood req.language with
  | .error message => (.error message, w)
  | .ok fullScript =>
    match validateScript fullScript with
    | .error message => (.error message, w)
    | .ok textOverlays =>
      match resolveAssets env product req.mood textOverlays w with
      | (.error message, w1) => (.error message, w1)
      | (.ok videoUrls, w1) =>
        let selectedVoiceId := getVoiceForProduct env.toLowerCase product
        let customMusicPath := selectMusic env req.audioOption
        match prepareVoice env req textOverlays selectedVoiceId timestamp w1 with
        | (.error message, w2) => (.error message, w2)
        | (.ok voiceAudioPath, w2) =>
          match createVideoWithSubtitles env (videoUrls.take 4) (textOverlays.take 4)
              voiceAudioPath customMusicPath req.includeSubtitles timestamp w2 with
          | (.error message, w3) => (.error message, w3)
          | (.ok finalVideoUrl, w3) =>
            (.ok { videoUrl := "http://localhost:3001" ++ finalVideoUrl,
                   script := fullScript,
                   scriptLines := textOverlays,
                   voice := selectedVoiceId,
                   mood := req.mood,
                   subtitles := req.includeSubtitles }, w3)

/-- The handler of `POST /api/generate`: the response and the world when it
is sent. -/
def generate (env : Env) (req : Request) (timestamp : Nat) (w : World) : Response × World :=
  match runJob env req timestamp w with
  | (.ok body, w1) => (.success body, w1)
  | (.error message, w1) => (.failure (failureBody message timestamp), w1)

/-! ## Concrete runs -/

/-- An environment in which every service answers: the script has three
lines, no search finds anything, downloads and the render engine succeed. -/
def quietEnv : Env :=
  { tmpdir := "/tmp",
    dirname := "/app",
    toLowerCase := asciiToLowerCase,
    generateEnhancedScript := fun _ _ _ => .ok "LINE: one\nLINE: two\nLINE: three",
    generateAiContent := fun _ => .ok "keywords",
    pexelsApiKey := true,
    pexelsSearch := fun _ => .ok (some []),
    textToSpeech := fun _ _ => .ok "mp3 bytes",
    download := fun url => .ok ("bytes of " ++ url),
    ffmpegRun := fun _ => .ok "mp4 bytes",
    musicFiles := none,
    random := fun _ => 0 }

/-- As `quietEnv`, but the download of `https://v.example/1.mp4` fails. -/
def brokenDownloadEnv : Env :=
  { quietEnv with
    download := fun url =>
      if url = "https://v.example/1.mp4" then .error "Request failed with status code 404"
      else .ok ("bytes of " ++ url) }

/-- As `quietEnv`, but the render engine reports an error. -/
def brokenRenderEnv : Env :=
  { quietEnv with ffmpegRun := fun _ => .error "ffmpeg exited with code 1" }

/-- As `quietEnv`, but the search finds a clip for the keywords of the lines
`two` and `three` and nothing for any other query. -/
def gapEnv : Env :=
  { quietEnv with
    generateAiContent := fun prompt =>
      if prompt = visualPrompt "one" "Lamp" then .ok "kw one"
      else if prompt = visualPrompt "two" "Lamp" then .ok "kw two"
      else .ok "kw three",
    pexelsSearch := fun query =>
      if query = "kw two aesthetic" then
        .ok (some [⟨12, [⟨"hd", some "https://v.example/two.mp4"⟩]⟩])
      else if query = "kw three aesthetic" then
        .ok (some [⟨15, [⟨"hd", some "https://v.example/three.mp4"⟩]⟩])
      else .ok (some []) }

/-- The world before a job starts. -/
def emptyWorld : World := { files := [], searches := [] }

/-- A world in which the voice file of job 7 has been written. -/
def worldWithVoice : World :=
  { files := [("/tmp/voice-7.mp3", "mp3 bytes")], searches := [] }

/-! ## Search outcomes seen by the fallback chains -/

/-- What `getPexelsVideoForLine` returns for a description once the API key
is configured: the locator picked from the result page, nothing when the
page has none or the request fails. -/
def searchReturn (env : Env) (visualDescription : String) : Option String :=
  match env.pexelsSearch (visualDescription ++ " aesthetic") with
  | .ok videos => pickFromPage videos
  | .error _ => none

/-- The world after the searches `queries` have been recorded. -/
def World.logged (w : World) (queries : List String) : World :=
  { w with searches := w.searches ++ queries }

/-- As `quietEnv`, but every search finds the same clip. -/
def sameClipEnv : Env :=
  { quietEnv with
    pexelsSearch := fun _ =>
      .ok (some [⟨20, [⟨"hd", some "https://v.example/same.mp4"⟩]⟩]) }

/-- As `gapEnv`, but the generic queries of the second pass find clips: the
first a new one, the second the clip of line `two` again, the third another
new one. -/
def secondPassEnv : Env :=
  { gapEnv with
    pexelsSearch := fun query =>
      if query = "kw two aesthetic" then
        .ok (some [⟨12, [⟨"hd", some "https://v.example/two.mp4"⟩]⟩])
      else if query = "kw three aesthetic" then
        .ok (some [⟨15, [⟨"hd", some "https://v.example/three.mp4"⟩]⟩])
      else if query = "Lamp unboxing aesthetic" then
        .ok (some [⟨11, [⟨"hd", some "https://v.example/g1.mp4"⟩]⟩])
      else if query = "cozy product showcase aesthetic" then
        .ok (some [⟨12, [⟨"hd", some "https://v.example/two.mp4"⟩]⟩])
      else if query = "lifestyle cozy aesthetic" then
        .ok (some [⟨13, [⟨"hd", some "https://v.example/g2.mp4"⟩]⟩])
      else .ok (some []) }

/-- As `gapEnv`, but the search also finds a clip for the keywords of the
line `one`: every line of the script resolves, each to its own clip. -/
def threeClipsEnv : Env :=
  { gapEnv with
    pexelsSearch := fun query =>
      if query = "kw one aesthetic" then
        .ok (some [⟨10, [⟨"hd", some "https://v.example/one.mp4"⟩]⟩])
      else if query = "kw two aesthetic" then
        .ok (some [⟨12, [⟨"hd", some "https://v.example/two.mp4"⟩]⟩])
      else if query = "kw three aesthetic" then
        .ok (some [⟨15, [⟨"hd", some "https://v.example/three.mp4"⟩]⟩])
      else .ok (some []) }

/-! ## Theorems -/

/-! ### Timing -/

theorem segmentDuration_three : segmentDuration 3 = 8 := by
  norm_num [segmentDuration]

theorem segmentDuration_four : segmentDuration 4 = 25 / 4 := by
  norm_num [segmentDuration]

theorem segment_length (n i : Nat) :
    segmentEnd n i - segmentStart n i = segmentDuration n := by
  unfold segmentEnd segmentStart; ring

theorem totalDuration_eq (n : Nat) : totalDuration n = (n : ℚ) * segmentDuration n := by
  unfold totalDuration
  have h : (List.range n).map (fun i => segmentEnd n i - segmentStart n i)
      = List.replicate n (segmentDuration n) := by
    apply List.ext_getElem
    · simp
    · intro i h1 h2
      simp [segment_length]
  rw [h, List.sum_replicate]
  simp

/-- C1 (as stated, refuted): with three segments the segment lengths sum to
24 seconds, not to the 30 second ceiling. -/
theorem timing_three_segments_sum_not_ceiling :
    segmentStart 3 0 = 0 ∧ totalDuration 3 = 24 ∧ totalDuration 3 ≠ 30 := by
  refine ⟨by simp [segmentStart], ?_, ?_⟩
  · rw [totalDuration_eq, segmentDuration_three]; norm_num
  · rw [totalDuration_eq, segmentDuration_three]; norm_num

/-- C1 (amended): for three or four segments the windows start at 0, each
window ends where the next begins, every window has positive length, an
earlier window ends no later than a later one starts, and the lengths sum to
24 seconds for three segments and 25 seconds for four, below the 30 second
ceiling. -/
theorem timing_plan_contiguous (n : Nat) (hn : n = 3 ∨ n = 4) :
    segmentStart n 0 = 0 ∧
    (∀ i, segmentEnd n i = segmentStart n (i + 1)) ∧
    (∀ i, segmentStart n i < segmentEnd n i) ∧
    (∀ i j, i < j → segmentEnd n i ≤ segmentStart n j) ∧
    totalDuration n = (if n = 3 then 24 else 25) ∧
    totalDuration n ≤ 30 := by
  have hd : 0 < segmentDuration n := by
    rcases hn with rfl | rfl
    · rw [segmentDuration_three]; norm_num
    · rw [segmentDuration_four]; norm_num
  refine ⟨by simp [segmentStart], ?_, ?_, ?_, ?_, ?_⟩
  · intro i
    unfold segmentEnd segmentStart
    push_cast
    ring
  · intro i
    unfold segmentEnd segmentStart
    nlinarith
  · intro i j hij
    unfold segmentEnd segmentStart
    have h1 : ((i : ℚ) + 1) ≤ (j : ℚ) := by exact_mod_cast hij
    exact mul_le_mul_of_nonneg_right h1 hd.le
  · rcases hn with rfl | rfl
    · rw [totalDuration_eq, segmentDuration_three]; norm_num
    · rw [totalDuration_eq, segmentDuration_four]; norm_num
  · rcases hn with rfl | rfl
    · rw [totalDuration_eq, segmentDuration_three]; norm_num
    · rw [totalDuration_eq, segmentDuration_four]; norm_num

theorem timing_plan_contiguous_witness :
    (4 = 3 ∨ 4 = 4) ∧ totalDuration 4 = 25 :=
  ⟨Or.inr rfl, by simpa using (timing_plan_contiguous 4 (Or.inr rfl)).2.2.2.2.1⟩

/-! ### Stock search -/

theorem find?_some_mem {α : Type} (p : α → Bool) (l : List α) (a : α)
    (h : l.find? p = some a) : a ∈ l ∧ p a = true :=
  ⟨List.mem_of_find?_eq_some h, List.find?_some h⟩

/-- C3: a locator returned for a result page is the link of a file of
quality hd of a video of that page whose duration lies in [10, 30]. -/
theorem pickFromPage_hd_in_range (videos : Option (List PexelsVideo)) (url : String)
    (h : pickFromPage videos = some url) :
    ∃ vs, videos = some vs ∧ ∃ v ∈ vs, 10 ≤ v.duration ∧ v.duration ≤ 30 ∧
      ∃ f ∈ v.video_files, f.quality = "hd" ∧ f.link = some url ∧ url ≠ "" := by
  unfold pickFromPage at h
  cases videos with
  | none => simp at h
  | some vs =>
    refine ⟨vs, rfl, ?_⟩
    simp only at h
    split at h
    · split at h
      · rename_i video hv
        obtain ⟨hmem, hdur⟩ := find?_some_mem _ _ _ hv
        split at h
        · rename_i f hf
          obtain ⟨hfmem, hfq⟩ := find?_some_mem _ _ _ hf
          simp only [durationOk, Bool.and_eq_true, decide_eq_true_eq] at hdur
          simp only [hdWithLink, Bool.and_eq_true, beq_iff_eq] at hfq
          refine ⟨video, hmem, hdur.1, hdur.2, f, hfmem, hfq.1, h, ?_⟩
          have := hfq.2
          rw [h] at this
          simpa [truthy] using this
        · simp at h
      · simp at h
    · simp at h

theorem pickFromPage_hd_in_range_witness :
    pickFromPage (some [⟨20, [⟨"hd", some "https://v.example/b.mp4"⟩]⟩])
        = some "https://v.example/b.mp4" ∧
    ∃ vs, some [(⟨20, [⟨"hd", some "https://v.example/b.mp4"⟩]⟩ : PexelsVideo)] = some vs ∧
      ∃ v ∈ vs, 10 ≤ v.duration ∧ v.duration ≤ 30 ∧
        ∃ f ∈ v.video_files, f.quality = "hd" ∧ f.link = some "https://v.example/b.mp4" ∧
          "https://v.example/b.mp4" ≠ "" :=
  ⟨by decide, pickFromPage_hd_in_range _ _ (by decide)⟩

/-- C2 (the code at the failing input): on a page whose first video has an
admissible duration but no HD file and whose second video qualifies, nothing
is returned although the second candidate qualifies. -/
theorem pickFromPage_misses_later_candidate :
    pickFromPage (some
        [⟨15, [⟨"sd", some "https://v.example/a-sd.mp4"⟩]⟩,
         ⟨20, [⟨"hd", some "https://v.example/b-hd.mp4"⟩]⟩]) = none ∧
    qualifies ⟨20, [⟨"hd", some "https://v.example/b-hd.mp4"⟩]⟩ = true ∧
    qualifies ⟨15, [⟨"sd", some "https://v.example/a-sd.mp4"⟩]⟩ = false := by
  decide

/-! ### Voice selection -/

theorem getVoiceForProduct_loop_eq_find (product : String) (table : List (String × String)) :
    getVoiceForProduct_loop product table
      = (table.find? (fun e => jsIncludes product e.1)).map (fun e => e.2) := by
  induction table with
  | nil => rfl
  | cons e rest ih =>
    obtain ⟨category, voiceId⟩ := e
    by_cases h : jsIncludes product category = true
    · simp [getVoiceForProduct_loop, h, List.find?]
    · simp only [Bool.not_eq_true] at h
      simp [getVoiceForProduct_loop, h, List.find?, ih]

theorem VOICE_MAPPING_split :
    VOICE_MAPPING = VOICE_MAPPING.take 16 ++ [("default", "21m00Tcm4TlvDq8ikWAM")] := by
  decide

/-- C8: the voice returned for a label is the one paired with the first
keyword of the table tech, ..., kitchen that occurs in the lower-cased label,
and the default voice when none occurs; two labels with the same lower-cased
form get the same voice. -/
theorem getVoiceForProduct_first_match (toLowerCase : String → String) (label : String) :
    (VOICE_MAPPING.take 16).map Prod.fst
        = ["tech", "gadgets", "electronics", "automotive", "sports", "beauty", "skincare",
           "fashion", "clothing", "jewelry", "food", "snacks", "health", "fitness", "home",
           "kitchen"] ∧
    getVoiceForProduct toLowerCase label
        = (match (VOICE_MAPPING.take 16).find? (fun e => jsIncludes (toLowerCase label) e.1) with
           | some e => e.2
           | none => "21m00Tcm4TlvDq8ikWAM") ∧
    (∀ other, toLowerCase other = toLowerCase label →
        getVoiceForProduct toLowerCase other = getVoiceForProduct toLowerCase label) := by
  refine ⟨by decide, ?_, ?_⟩
  · unfold getVoiceForProduct
    rw [getVoiceForProduct_loop_eq_find]
    have hd : VOICE_MAPPING_default = "21m00Tcm4TlvDq8ikWAM" := by decide
    rw [hd]
    conv_lhs => rw [VOICE_MAPPING_split]
    rw [List.find?_append]
    cases h : (VOICE_MAPPING.take 16).find? (fun e => jsIncludes (toLowerCase label) e.1) with
    | some e => simp
    | none =>
      by_cases hdef : jsIncludes (toLowerCase label) "default" = true
      · simp [List.find?, hdef]
      · simp only [Bool.not_eq_true] at hdef
        simp [List.find?, hdef]
  · intro other h
    unfold getVoiceForProduct
    rw [h]

theorem getVoiceForProduct_first_match_witness :
    asciiToLowerCase "SMART Kitchen Gadgets" = asciiToLowerCase "smart kitchen gadgets" ∧
    getVoiceForProduct asciiToLowerCase "SMART Kitchen Gadgets" = "pNInz6obpgDQGcFmaJgB" ∧
    getVoiceForProduct asciiToLowerCase "SMART Kitchen Gadgets"
      = getVoiceForProduct asciiToLowerCase "smart kitchen gadgets" :=
  ⟨by decide, by decide,
   (getVoiceForProduct_first_match asciiToLowerCase "smart kitchen gadgets").2.2
     "SMART Kitchen Gadgets" (by decide)⟩

/-! ### Script validation -/

theorem jsReplaceFirst_marker (line : String) (h : jsStartsWith line "LINE:" = true) :
    jsReplaceFirst line "LINE:" "" = ⟨line.data.drop 5⟩ := by
  unfold jsStartsWith at h
  unfold jsReplaceFirst
  congr 1
  cases hd : line.data with
  | nil => rw [hd] at h; simp [List.isPrefixOf] at h
  | cons c cs =>
    rw [hd] at h
    simp only [jsReplaceFirstChars, h, if_true]
    rfl

theorem parseScript_eq (fullScript : String) :
    parseScript fullScript
      = (((jsSplitLines fullScript).filter (fun line => jsStartsWith line "LINE:")).take 4).map
          (fun line => jsTrim ⟨line.data.drop 5⟩) := by
  unfold parseScript
  rw [List.map_take]
  congr 1
  apply List.map_congr_left
  intro line hline
  rw [jsReplaceFirst_marker line (List.mem_filter.mp hline).2]

theorem parseScript_length (fullScript : String) :
    (parseScript fullScript).length
      = min 4 ((jsSplitLines fullScript).filter (fun line => jsStartsWith line "LINE:")).length := by
  unfold parseScript
  simp [List.length_take]

/-- C5 (as stated, refuted): a text whose three marked lines are all empty
passes validation, and the job then carries three empty lines. -/
theorem validateScript_accepts_empty_lines :
    validateScript "LINE:\nLINE: \nLINE:" = .ok ["", "", ""] ∧
    ((parseScript "LINE:\nLINE: \nLINE:").filter (fun line => line != "")).length = 0 :=
  ⟨by rfl, by decide⟩

/-- C5 (amended): a text passes validation exactly when at least three of
its lines start with the marker; a job that passes carries three or four
lines, which are the first marked lines of the text in their order, each with
the marker removed and trimmed (emptiness is not checked). -/
theorem validateScript_iff_three_marked (fullScript : String) :
    ((∃ lines, validateScript fullScript = .ok lines) ↔
      3 ≤ ((jsSplitLines fullScript).filter (fun line => jsStartsWith line "LINE:")).length) ∧
    (∀ lines, validateScript fullScript = .ok lines →
      (lines.length = 3 ∨ lines.length = 4) ∧
      lines = (((jsSplitLines fullScript).filter
                (fun line => jsStartsWith line "LINE:")).take 4).map
                (fun line => jsTrim ⟨line.data.drop 5⟩)) := by
  have hlen := parseScript_length fullScript
  constructor
  · constructor
    · rintro ⟨lines, h⟩
      unfold validateScript at h
      simp only at h
      split at h
      · simp at h
      · omega
    · intro h
      refine ⟨parseScript fullScript, ?_⟩
      unfold validateScript
      simp only
      rw [if_neg (by omega)]
  · intro lines h
    unfold validateScript at h
    simp only at h
    split at h
    · simp at h
    · injection h with h
      subst h
      exact ⟨by omega, parseScript_eq fullScript⟩

theorem validateScript_iff_three_marked_witness :
    validateScript "LINE: Glow up\nLINE: in seconds\nnote\nLINE: Shop now"
        = .ok ["Glow up", "in seconds", "Shop now"] ∧
    ((["Glow up", "in seconds", "Shop now"] : List String).length = 3 ∨
      (["Glow up", "in seconds", "Shop now"] : List String).length = 4) :=
  ⟨by rfl,
   ((validateScript_iff_three_marked
      "LINE: Glow up\nLINE: in seconds\nnote\nLINE: Shop now").2 _ (by rfl)).1⟩

/-! ### Caption escaping -/

theorem jsReplaceAllChar_append (c : Char) (rep a b : List Char) :
    jsReplaceAllChar c rep (a ++ b) = jsReplaceAllChar c rep a ++ jsReplaceAllChar c rep b := by
  induction a with
  | nil => rfl
  | cons x xs ih => simp [jsReplaceAllChar, ih]

theorem escapeChars_nil : escapeChars [] = [] := rfl

theorem escapeChars_cons (x : Char) (xs : List Char) :
    escapeChars (x :: xs)
      = (if isQuote x then [backslash, x] else [x]) ++ escapeChars xs := by
  unfold escapeChars
  rw [jsReplaceAllChar, jsReplaceAllChar_append]
  congr 1
  by_cases h1 : x = singleQuote
  · subst h1; decide
  · by_cases h2 : x = doubleQuote
    · subst h2; decide
    · simp [isQuote, h1, h2, jsReplaceAllChar]

theorem backslash_not_quote : isQuote backslash = false := by decide

theorem escapeChars_head_not_quote (l : List Char) (q : Char)
    (h : (escapeChars l)[0]? = some q) : isQuote q = false := by
  cases l with
  | nil => simp [escapeChars_nil] at h
  | cons x xs =>
    rw [escapeChars_cons] at h
    by_cases hx : isQuote x = true
    · simp [hx] at h
      rw [← h]; exact backslash_not_quote
    · simp only [Bool.not_eq_true] at hx
      simp [hx] at h
      rw [← h]; exact hx

theorem escapeChars_quote_after_backslash (l : List Char) :
    ∀ k q, (escapeChars l)[k + 1]? = some q → isQuote q = true →
      (escapeChars l)[k]? = some backslash := by
  induction l with
  | nil => intro k q h; simp [escapeChars_nil] at h
  | cons x xs ih =>
    intro k q h hq
    rw [escapeChars_cons] at h ⊢
    by_cases hx : isQuote x = true
    · simp only [hx, if_true, List.cons_append, List.nil_append] at h ⊢
      match k with
      | 0 => simp
      | 1 =>
        simp only [List.getElem?_cons_succ] at h
        have := escapeChars_head_not_quote xs q h
        rw [this] at hq; simp at hq
      | k + 2 =>
        simp only [List.getElem?_cons_succ] at h ⊢
        exact ih k q h hq
    · simp only [Bool.not_eq_true] at hx
      simp only [hx, Bool.false_eq_true, if_false, List.cons_append, List.nil_append] at h ⊢
      match k with
      | 0 =>
        simp only [List.getElem?_cons_succ] at h
        have := escapeChars_head_not_quote xs q h
        rw [this] at hq; simp at hq
      | k + 1 =>
        simp only [List.getElem?_cons_succ] at h ⊢
        exact ih k q h hq

theorem dropBeforeQuotes_escapeChars (l : List Char) :
    dropBeforeQuotes (escapeChars l) = l := by
  induction l with
  | nil => rfl
  | cons x xs ih =>
    rw [escapeChars_cons]
    by_cases hx : isQuote x = true
    · simp only [hx, if_true, List.cons_append, List.nil_append]
      simp [dropBeforeQuotes, hx, ih]
    · simp only [Bool.not_eq_true] at hx
      simp only [hx, Bool.false_eq_true, if_false, List.cons_append, List.nil_append]
      cases he : escapeChars xs with
      | nil =>
        rw [he] at ih
        rw [← ih]; rfl
      | cons y ys =>
        have hy : isQuote y = false := escapeChars_head_not_quote xs y (by simp [he])
        rw [he] at ih
        simp [dropBeforeQuotes, hy, ih]

/-- C10: in the text embedded for a caption every single or double quote
stands right after a backslash, and deleting the character before each quote
of the embedded text gives back the caption. -/
theorem escapeText_roundtrip (caption : String) :
    (∀ k q, (escapeText caption).data[k]? = some q → isQuote q = true →
      ∃ j, k = j + 1 ∧ (escapeText caption).data[j]? = some backslash) ∧
    dropBeforeQuotes (escapeText caption).data = caption.data := by
  unfold escapeText
  refine ⟨?_, dropBeforeQuotes_escapeChars caption.data⟩
  intro k q h hq
  match k with
  | 0 =>
    have := escapeChars_head_not_quote caption.data q h
    rw [this] at hq; simp at hq
  | k + 1 =>
    exact ⟨k, rfl, escapeChars_quote_after_backslash caption.data k q h hq⟩

theorem escapeText_roundtrip_witness :
    escapeText "Say \"wow\", it's here" = "Say \\\"wow\\\", it\\'s here" ∧
    (∃ j, 5 = j + 1 ∧ (escapeText "Say \"wow\", it's here").data[j]? = some backslash) ∧
    dropBeforeQuotes (escapeText "Say \"wow\", it's here").data
      = "Say \"wow\", it's here".data :=
  ⟨by decide,
   (escapeText_roundtrip "Say \"wow\", it's here").1 5 doubleQuote (by decide) (by decide),
   (escapeText_roundtrip "Say \"wow\", it's here").2⟩

/-! ### Failure response -/

theorem voiceoverError_includes_voiceover (detail : String) :
    jsIncludes (voiceoverError detail) "voiceover" = true := by
  simp [jsIncludes, voiceoverError, String.data_append, jsIncludesChars, List.isPrefixOf]

theorem voiceoverError_includes_Pexels (detail : String) :
    jsIncludes (voiceoverError detail) "Pexels" = jsIncludes detail "Pexels" := by
  simp [jsIncludes, voiceoverError, String.data_append, jsIncludesChars, List.isPrefixOf]

/-- C7 (as stated, refuted): for a failed download whose error text is
`Request failed with status code 404` the user-facing message is none of the
four category messages and carries the raw error text. -/
theorem failureBody_message_carries_raw_text :
    (failureBody "Request failed with status code 404" 0).message
      = "Video generation failed: Request failed with status code 404" ∧
    (failureBody "Request failed with status code 404" 0).message
      ≠ "Video generation failed: " ++ assetMessage ∧
    (failureBody "Request failed with status code 404" 0).message
      ≠ "Video generation failed: " ++ voiceMessage ∧
    (failureBody "Request failed with status code 404" 0).message
      ≠ "Video generation failed: " ++ scriptMessage ∧
    (failureBody "Request failed with status code 404" 0).message
      ≠ "Video generation failed: " ++ renderMessage ∧
    jsIncludes (failureBody "Request failed with status code 404" 0).message
      "Request failed with status code 404" = true := by
  decide

/-- C7 (amended): the raw error text is always the field `error`; the
message is the fixed prefix followed by the category message of the first
keyword group found in the raw text (Pexels; ElevenLabs or voiceover; AI or
script; FFmpeg), and by the raw text itself when no keyword is found.  The
script-format error gets the script message, and the voice error gets the
voice message unless the provider detail mentions Pexels. -/
theorem failureBody_classified (errorText : String) (timestamp : Nat) :
    (failureBody errorText timestamp).error = errorText ∧
    (jsIncludes errorText "Pexels" = true →
      (failureBody errorText timestamp).message
        = "Video generation failed: " ++ assetMessage) ∧
    (jsIncludes errorText "Pexels" = false →
      (jsIncludes errorText "ElevenLabs" = true ∨ jsIncludes errorText "voiceover" = true) →
      (failureBody errorText timestamp).message
        = "Video generation failed: " ++ voiceMessage) ∧
    (jsIncludes errorText "Pexels" = false → jsIncludes errorText "ElevenLabs" = false →
      jsIncludes errorText "voiceover" = false →
      (jsIncludes errorText "AI" = true ∨ jsIncludes errorText "script" = true) →
      (failureBody errorText timestamp).message
        = "Video generation failed: " ++ scriptMessage) ∧
    (jsIncludes errorText "Pexels" = false → jsIncludes errorText "ElevenLabs" = false →
      jsIncludes errorText "voiceover" = false → jsIncludes errorText "AI" = false →
      jsIncludes errorText "script" = false → jsIncludes errorText "FFmpeg" = true →
      (failureBody errorText timestamp).message
        = "Video generation failed: " ++ renderMessage) ∧
    (jsIncludes errorText "Pexels" = false → jsIncludes errorText "ElevenLabs" = false →
      jsIncludes errorText "voiceover" = false → jsIncludes errorText "AI" = false →
      jsIncludes errorText "script" = false → jsIncludes errorText "FFmpeg" = false →
      (failureBody errorText timestamp).message
        = "Video generation failed: " ++ errorText) ∧
    (failureBody "AI failed to generate proper script format." timestamp).message
      = "Video generation failed: " ++ scriptMessage ∧
    (∀ detail, jsIncludes detail "Pexels" = false →
      (failureBody (voiceoverError detail) timestamp).message
        = "Video generation failed: " ++ voiceMessage) := by
  refine ⟨rfl, ?_, ?_, ?_, ?_, ?_, ?_, ?_⟩
  · intro h; simp [failureBody, classifyError, h]
  · intro h1 h2
    rcases h2 with h2 | h2 <;> simp [failureBody, classifyError, h1, h2]
  · intro h1 h2 h3 h4
    rcases h4 with h4 | h4 <;> simp [failureBody, classifyError, h1, h2, h3, h4]
  · intro h1 h2 h3 h4 h5 h6
    simp [failureBody, classifyError, h1, h2, h3, h4, h5, h6]
  · intro h1 h2 h3 h4 h5 h6
    simp [failureBody, classifyError, h1, h2, h3, h4, h5, h6]
  · show classifyError "AI failed to generate proper script format." = _
    decide
  · intro detail h
    simp [failureBody, classifyError, voiceoverError_includes_Pexels,
      voiceoverError_includes_voiceover, h]

theorem failureBody_classified_witness :
    jsIncludes "quota exceeded" "Pexels" = false ∧
    (failureBody (voiceoverError "quota exceeded") 7).message
      = "Video generation failed: Voice generation failed. Check ElevenLabs API key and quota." ∧
    (failureBody "Pexels API Key is missing." 7).message
      = "Video generation failed: Could not find suitable videos. Try a different product or mood." :=
  ⟨by decide,
   (failureBody_classified "" 7).2.2.2.2.2.2.2 "quota exceeded" (by decide),
   (failureBody_classified "Pexels API Key is missing." 7).2.1 (by decide)⟩

/-! ### Audio plan -/

theorem segmentChains_not_audio (n : Nat) (textOverlays : List String) (includeSubtitles : Bool)
    (i : Nat) : ∀ c ∈ segmentChains n textOverlays includeSubtitles i,
      Chain.isAudio c = false ∧ Chain.hasMix c = false := by
  intro c hc
  unfold segmentChains at hc
  simp only [List.mem_cons, List.mem_singleton, List.not_mem_nil, or_false] at hc
  rcases hc with rfl | rfl
  · exact ⟨rfl, rfl⟩
  · split <;> exact ⟨rfl, rfl⟩

theorem video_part_filter (n : Nat) (textOverlays : List String) (includeSubtitles : Bool)
    (p : Chain → Bool) (hp : ∀ c, Chain.isAudio c = false → Chain.hasMix c = false → p c = false)
    (hc : p (concatChain n) = false) :
    ((List.range n).flatMap (segmentChains n textOverlays includeSubtitles) ++
      [concatChain n]).filter p = [] := by
  rw [List.filter_eq_nil_iff]
  intro c hmem
  rw [List.mem_append, List.mem_flatMap] at hmem
  rcases hmem with ⟨i, _, hi⟩ | hmem
  · have := segmentChains_not_audio n textOverlays includeSubtitles i c hi
    simp [hp c this.1 this.2]
  · simp only [List.mem_singleton] at hmem
    subst hmem
    simp [hc]

theorem buildCommand_audio_filter (downloadedFiles textOverlays : List String)
    (voice music : Option String) (includeSubtitles : Bool) (outputPath : String) :
    (buildCommand downloadedFiles textOverlays voice music includeSubtitles
        outputPath).complexFilter.filter Chain.isAudio
      = (audioChains downloadedFiles.length voice music).filter Chain.isAudio := by
  unfold buildCommand
  simp only
  rw [List.filter_append, video_part_filter _ _ _ _ (fun c h _ => h) rfl, List.nil_append]

theorem buildCommand_mix_filter (downloadedFiles textOverlays : List String)
    (voice music : Option String) (includeSubtitles : Bool) (outputPath : String) :
    (buildCommand downloadedFiles textOverlays voice music includeSubtitles
        outputPath).complexFilter.filter Chain.hasMix
      = (audioChains downloadedFiles.length voice music).filter Chain.hasMix := by
  unfold buildCommand
  simp only
  rw [List.filter_append, video_part_filter _ _ _ _ (fun c _ h => h) rfl, List.nil_append]

/-- C9: the audio chains of the built command fall in four cases.  Voice and
music: voice at volume 1.0 and music at volume 0.2, each trimmed to 30 s and
mixed with shortest-stream duration.  Voice only: volume 1.0 trimmed to 30 s,
no mix.  Music only: volume 0.3 trimmed to 30 s, no mix.  Neither: no audio
chain and no audio stream mapped. -/
theorem buildCommand_audio_cases (downloadedFiles textOverlays : List String)
    (voice music : Option String) (includeSubtitles : Bool) (outputPath : String) :
    (truthy voice = true → truthy music = true →
      (buildCommand downloadedFiles textOverlays voice music includeSubtitles
          outputPath).complexFilter.filter Chain.isAudio
        = [ ⟨[.audioIn downloadedFiles.length], [.volume "1.0", .atrim 30], .voice⟩,
            ⟨[.audioIn (downloadedFiles.length + 1)], [.volume "0.2", .atrim 30], .music⟩,
            ⟨[.voice, .music], [.amix 2 "shortest"], .outa⟩ ] ∧
      "[outa]" ∈ (buildCommand downloadedFiles textOverlays voice music includeSubtitles
          outputPath).outputOptions) ∧
    (truthy voice = true → truthy music = false →
      (buildCommand downloadedFiles textOverlays voice music includeSubtitles
          outputPath).complexFilter.filter Chain.isAudio
        = [ ⟨[.audioIn downloadedFiles.length], [.volume "1.0", .atrim 30], .outa⟩ ] ∧
      (buildCommand downloadedFiles textOverlays voice music includeSubtitles
          outputPath).complexFilter.filter Chain.hasMix = [] ∧
      "[outa]" ∈ (buildCommand downloadedFiles textOverlays voice music includeSubtitles
          outputPath).outputOptions) ∧
    (truthy voice = false → truthy music = true →
      (buildCommand downloadedFiles textOverlays voice music includeSubtitles
          outputPath).complexFilter.filter Chain.isAudio
        = [ ⟨[.audioIn downloadedFiles.length], [.volume "0.3", .atrim 30], .outa⟩ ] ∧
      (buildCommand downloadedFiles textOverlays voice music includeSubtitles
          outputPath).complexFilter.filter Chain.hasMix = [] ∧
      "[outa]" ∈ (buildCommand downloadedFiles textOverlays voice music includeSubtitles
          outputPath).outputOptions) ∧
    (truthy voice = false → truthy music = false →
      (buildCommand downloadedFiles textOverlays voice music includeSubtitles
          outputPath).complexFilter.filter Chain.isAudio = [] ∧
      (buildCommand downloadedFiles textOverlays voice music includeSubtitles
          outputPath).complexFilter.filter Chain.hasMix = [] ∧
      "[outa]" ∉ (buildCommand downloadedFiles textOverlays voice music includeSubtitles
          outputPath).outputOptions) := by
  rw [buildCommand_audio_filter, buildCommand_mix_filter]
  refine ⟨?_, ?_, ?_, ?_⟩ <;> intro hv hm <;>
    simp [audioChains, audioMaps, buildCommand, hv, hm, Chain.isAudio, Chain.hasMix]

theorem buildCommand_audio_cases_witness :
    truthy (some "/tmp/voice-7.mp3") = true ∧ truthy (some "/app/public/music/a.mp3") = true ∧
    (buildCommand ["/tmp/input-0.mp4"] ["Hi"] (some "/tmp/voice-7.mp3")
        (some "/app/public/music/a.mp3") true "/out.mp4").complexFilter.filter Chain.isAudio
      = [ ⟨[.audioIn 1], [.volume "1.0", .atrim 30], .voice⟩,
          ⟨[.audioIn 2], [.volume "0.2", .atrim 30], .music⟩,
          ⟨[.voice, .music], [.amix 2 "shortest"], .outa⟩ ] :=
  ⟨by decide, by decide,
   ((buildCommand_audio_cases ["/tmp/input-0.mp4"] ["Hi"] (some "/tmp/voice-7.mp3")
      (some "/app/public/music/a.mp3") true "/out.mp4").1 (by decide) (by decide)).1⟩

/-! ### Temporary files of the composition -/

/-- C6 (the code at the failing input): when the second of two downloads
fails, the promise is rejected while the first downloaded clip and the voice
file are still on disk; when the render engine fails, both clips and the
voice file are still on disk. -/
theorem createVideoWithSubtitles_leaves_files_on_failure :
    createVideoWithSubtitles brokenDownloadEnv
        ["https://v.example/0.mp4", "https://v.example/1.mp4"] ["one", "two", "three"]
        (some "/tmp/voice-7.mp3") none false 7 worldWithVoice
      = (.error "Request failed with status code 404",
         { files := [("/tmp/voice-7.mp3", "mp3 bytes"),
                     ("/tmp/input-0.mp4", "bytes of https://v.example/0.mp4")],
           searches := [] }) ∧
    createVideoWithSubtitles brokenRenderEnv
        ["https://v.example/0.mp4", "https://v.example/1.mp4"] ["one", "two", "three"]
        (some "/tmp/voice-7.mp3") none false 7 worldWithVoice
      = (.error "ffmpeg exited with code 1",
         { files := [("/tmp/voice-7.mp3", "mp3 bytes"),
                     ("/tmp/input-0.mp4", "bytes of https://v.example/0.mp4"),
                     ("/tmp/input-1.mp4", "bytes of https://v.example/1.mp4")],
           searches := [] }) ∧
    createVideoWithSubtitles quietEnv
        ["https://v.example/0.mp4", "https://v.example/1.mp4"] ["one", "two", "three"]
        (some "/tmp/voice-7.mp3") none false 7 worldWithVoice
      = (.ok "/videos/final-video-7.mp4",
         { files := [("/app/public/videos/final-video-7.mp4", "mp4 bytes")],
           searches := [] }) := by
  refine ⟨by rfl, by rfl, by rfl⟩

/-! ### Order of the segments -/

theorem digitChar_val (k : Nat) (h : k < 10) : (Nat.digitChar k).toNat - 48 = k := by
  interval_cases k <;> rfl

theorem toDigitsCore_acc (fuel : Nat) : ∀ n ds,
    Nat.toDigitsCore 10 fuel n ds = Nat.toDigitsCore 10 fuel n [] ++ ds := by
  induction fuel with
  | zero => intro n ds; simp [Nat.toDigitsCore]
  | succ f ih =>
    intro n ds
    simp only [Nat.toDigitsCore]
    split
    · simp
    · rw [ih _ (_ :: ds), ih _ [_]]; simp

theorem decodeDigits_toDigitsCore (fuel : Nat) : ∀ n, n < fuel →
    decodeDigits (Nat.toDigitsCore 10 fuel n []) = n := by
  induction fuel with
  | zero => intro n h; omega
  | succ f ih =>
    intro n h
    simp only [Nat.toDigitsCore]
    split
    · rename_i h0
      have hn : n < 10 := by omega
      have : n % 10 = n := by omega
      simp [decodeDigits, this, digitChar_val n hn]
    · rename_i h0
      rw [toDigitsCore_acc]
      have hlt : n / 10 < f := by omega
      have := ih (n / 10) hlt
      unfold decodeDigits at this ⊢
      rw [List.foldl_append, this]
      simp [digitChar_val (n % 10) (Nat.mod_lt _ (by norm_num))]
      omega

theorem toString_nat_injective (a b : Nat) (h : toString a = toString b) : a = b := by
  have h1 : (Nat.toDigits 10 a) = (Nat.toDigits 10 b) := by
    have : (Nat.repr a).data = (Nat.repr b).data := congrArg String.data h
    simpa [Nat.repr, List.asString] using this
  have ha := decodeDigits_toDigitsCore (a + 1) a (by omega)
  have hb := decodeDigits_toDigitsCore (b + 1) b (by omega)
  unfold Nat.toDigits at h1
  rw [← ha, ← hb, h1]

theorem inputPath_injective (env : Env) (i j : Nat) (h : inputPath env i = inputPath env j) :
    i = j := by
  unfold inputPath joinPath at h
  have h1 := congrArg String.data h
  simp only [String.data_append, List.append_assoc, List.append_cancel_left_eq,
    List.append_cancel_right_eq] at h1
  exact toString_nat_injective i j (String.ext h1)

theorem orChain_fst (env : Env) (queries : List String) (w w0 : World) :
    (orChain env queries w).1 = (orChain env queries w0).1 := by
  induction queries generalizing w w0 with
  | nil => rfl
  | cons query rest ih =>
    simp only [orChain, getPexelsVideoForLine]
    cases pexelsResult env query with
    | error message => rfl
    | ok result =>
      simp only
      by_cases ht : truthy result = true
      · simp [ht]
      · simp only [ht]
        exact ih _ _

theorem resolveLine_fst (env : Env) (product mood line : String) (w : World) :
    (resolveLine env product mood line w).1 = lineAsset env product mood line := by
  unfold lineAsset resolveLine
  cases env.generateAiContent (visualPrompt line product) with
  | error message => rfl
  | ok answer => exact orChain_fst env _ _ _

theorem pushIfTruthy_eq (videoUrls : List String) (result : Option String) :
    pushIfTruthy videoUrls result = videoUrls ++ (truthyValue result).toList := by
  cases result with
  | none => simp [pushIfTruthy, truthyValue]
  | some url =>
    by_cases h : (url != "") = true
    · simp [pushIfTruthy, truthyValue, h]
    · simp [pushIfTruthy, truthyValue, h]

theorem resolveLines_collect (env : Env) (product mood : String) (lines : List String) :
    ∀ acc w videoUrls w1,
      resolveLines env product mood lines acc w = (.ok videoUrls, w1) →
      videoUrls = acc ++ lines.filterMap (lineLocator env product mood) := by
  induction lines with
  | nil =>
    intro acc w videoUrls w1 h
    simp only [resolveLines, Prod.mk.injEq, Except.ok.injEq] at h
    simp [h.1]
  | cons line rest ih =>
    intro acc w videoUrls w1 h
    have hfst := resolveLine_fst env product mood line w
    rcases hr : resolveLine env product mood line w with ⟨res, w2⟩
    rw [hr] at hfst
    simp only [resolveLines, hr] at h
    cases res with
    | error message => simp at h
    | ok result =>
      simp only at h hfst
      have := ih _ _ _ _ h
      rw [this, pushIfTruthy_eq]
      have hloc : lineLocator env product mood line = truthyValue result := by
        unfold lineLocator
        rw [← hfst]
      rw [List.filterMap_cons, hloc]
      cases truthyValue result <;> simp

theorem filterMap_all_some {α β : Type} (f : α → Option β) (l : List α)
    (h : ∀ x ∈ l, (f x).isSome = true) : (l.filterMap f).map some = l.map f := by
  induction l with
  | nil => rfl
  | cons x xs ih =>
    have hx := h x (List.mem_cons_self x xs)
    have hxs := ih (fun y hy => h y (List.mem_cons_of_mem x hy))
    cases hfx : f x with
    | none => rw [hfx] at hx; simp at hx
    | some v => simp [List.filterMap_cons, hfx, hxs]

theorem segmentChains_length (n : Nat) (textOverlays : List String) (includeSubtitles : Bool)
    (i : Nat) : (segmentChains n textOverlays includeSubtitles i).length = 2 := rfl

theorem flatMap_pairs_length (f : Nat → List Chain) (hf : ∀ k, (f k).length = 2) (n : Nat) :
    ((List.range n).flatMap f).length = 2 * n := by
  induction n with
  | zero => rfl
  | succ n ih =>
    rw [List.range_succ, List.flatMap_append, List.length_append, ih]
    simp [hf]
    omega

theorem flatMap_pairs_getElem? (f : Nat → List Chain) (hf : ∀ k, (f k).length = 2) (n : Nat) :
    ∀ i j, i < n → j < 2 → ((List.range n).flatMap f)[2 * i + j]? = (f i)[j]? := by
  induction n with
  | zero => intro i j hi; omega
  | succ n ih =>
    intro i j hi hj
    rw [List.range_succ, List.flatMap_append]
    have hlen := flatMap_pairs_length f hf n
    by_cases hin : i < n
    · rw [List.getElem?_append_left (by omega)]
      exact ih i j hin hj
    · have hi' : i = n := by omega
      subst hi'
      rw [List.getElem?_append_right (by omega), hlen]
      simp

theorem buildCommand_segment (downloadedFiles textOverlays : List String)
    (voice music : Option String) (includeSubtitles : Bool) (outputPath : String) (i : Nat)
    (hi : i < downloadedFiles.length) (j : Nat) (hj : j < 2) :
    (buildCommand downloadedFiles textOverlays voice music includeSubtitles
        outputPath).complexFilter[2 * i + j]?
      = (segmentChains downloadedFiles.length textOverlays includeSubtitles i)[j]? := by
  unfold buildCommand
  simp only
  have hlen := flatMap_pairs_length
    (segmentChains downloadedFiles.length textOverlays includeSubtitles)
    (segmentChains_length _ _ _) downloadedFiles.length
  rw [List.append_assoc, List.getElem?_append_left (by omega)]
  exact flatMap_pairs_getElem? _ (segmentChains_length _ _ _) _ i j hi hj

theorem buildCommand_input (downloadedFiles textOverlays : List String)
    (voice music : Option String) (includeSubtitles : Bool) (outputPath : String) (i : Nat)
    (hi : i < downloadedFiles.length) :
    (buildCommand downloadedFiles textOverlays voice music includeSubtitles
        outputPath).inputs[i]? = downloadedFiles[i]? := by
  unfold buildCommand
  simp only
  rw [List.append_assoc, List.getElem?_append_left hi]

theorem writeFile_mem (w : World) (path content : String) :
    (path, content) ∈ (w.writeFile path content).files := by
  simp [World.writeFile]

theorem writeFile_preserves (w : World) (path content p c : String)
    (h : (p, c) ∈ w.files) (hne : p ≠ path) : (p, c) ∈ (w.writeFile path content).files := by
  simp [World.writeFile, h, hne]

theorem downloadAll_preserves (env : Env) (urls : List String) :
    ∀ i acc w files w1, downloadAll env urls i acc w = (.ok files, w1) →
      ∀ p c, (p, c) ∈ w.files → (∀ k, k < urls.length → p ≠ inputPath env (i + k)) →
        (p, c) ∈ w1.files := by
  induction urls with
  | nil =>
    intro i acc w files w1 h p c hp _
    simp only [downloadAll, Prod.mk.injEq] at h
    rw [← h.2]; exact hp
  | cons url rest ih =>
    intro i acc w files w1 h p c hp hne
    simp only [downloadAll] at h
    cases hd : env.download url with
    | error message => rw [hd] at h; simp at h
    | ok data =>
      rw [hd] at h
      simp only at h
      refine ih _ _ _ _ _ h p c ?_ ?_
      · exact writeFile_preserves _ _ _ _ _ hp (by simpa using hne 0 (by simp))
      · intro k hk
        have := hne (k + 1) (by simp; omega)
        rwa [show i + (k + 1) = i + 1 + k by omega] at this

theorem downloadAll_ok (env : Env) (urls : List String) :
    ∀ i acc w files w1, downloadAll env urls i acc w = (.ok files, w1) →
      files = acc ++ (List.range urls.length).map (fun k => inputPath env (i + k)) ∧
      ∀ k (hk : k < urls.length),
        env.download urls[k] = .ok (downloaded env urls[k]) ∧
        (inputPath env (i + k), downloaded env urls[k]) ∈ w1.files := by
  induction urls with
  | nil =>
    intro i acc w files w1 h
    simp only [downloadAll, Prod.mk.injEq, Except.ok.injEq] at h
    refine ⟨by simp [h.1], ?_⟩
    intro k hk; simp at hk
  | cons url rest ih =>
    intro i acc w files w1 h
    simp only [downloadAll] at h
    cases hd : env.download url with
    | error message => rw [hd] at h; simp at h
    | ok data =>
      rw [hd] at h
      simp only at h
      obtain ⟨hfiles, hk⟩ := ih _ _ _ _ _ h
      constructor
      · rw [hfiles, List.length_cons, List.range_succ_eq_map, List.map_cons, List.map_map,
          List.append_assoc]
        congr 1
        simp only [List.singleton_append, Nat.add_zero, List.cons.injEq, true_and]
        apply List.map_congr_left
        intro k _
        simp only [Function.comp]
        congr 1
        omega
      · intro k hklt
        match k with
        | 0 =>
          have hdown : downloaded env url = data := by simp [downloaded, hd]
          simp only [List.getElem_cons_zero, Nat.add_zero]
          rw [hdown]
          refine ⟨hd, ?_⟩
          refine downloadAll_preserves env rest _ _ _ _ _ h _ _ (writeFile_mem _ _ _) ?_
          intro k _ heq
          have := inputPath_injective env _ _ heq
          omega
        | k + 1 =>
          have hk' : k < rest.length := by simpa using hklt
          have := hk k hk'
          simp only [List.getElem_cons_succ]
          rw [show i + (k + 1) = i + 1 + k by omega]
          exact this

theorem resolveAssets_all_resolved (env : Env) (product mood : String) (lines : List String)
    (w w1 : World) (videoUrls : List String)
    (hres : resolveLines env product mood lines [] w = (.ok videoUrls, w1))
    (hlen : videoUrls.length = lines.length) (h3 : 3 ≤ lines.length) :
    resolveAssets env product mood lines w = (.ok videoUrls, w1) := by
  unfold resolveAssets
  rw [hres]
  simp only
  rw [if_neg (by omega)]
  simp only
  rw [if_neg (by omega)]

/-- C4 (as stated, refuted): in a job with the lines one, two, three where
nothing is found for line one, the job reaches composition, segment 0 reads
the clip that was resolved for line two and shows the caption of line one. -/
theorem segment_shows_asset_of_other_line :
    lineAsset gapEnv "Lamp" "cozy" "one" = .ok none ∧
    lineAsset gapEnv "Lamp" "cozy" "two" = .ok (some "https://v.example/two.mp4") ∧
    (resolveAssets gapEnv "Lamp" "cozy" ["one", "two", "three"] emptyWorld).1
      = .ok ["https://v.example/two.mp4", "https://v.example/three.mp4"] ∧
    (runJob gapEnv ⟨some "Lamp", none, "cozy", "English", "music", true⟩ 7 emptyWorld).1
      = .ok { videoUrl := "http://localhost:3001/videos/final-video-7.mp4",
              script := "LINE: one\nLINE: two\nLINE: three",
              scriptLines := ["one", "two", "three"],
              voice := "21m00Tcm4TlvDq8ikWAM", mood := "cozy", subtitles := true } ∧
    downloadAll gapEnv ["https://v.example/two.mp4", "https://v.example/three.mp4"] 0 []
        emptyWorld
      = (.ok ["/tmp/input-0.mp4", "/tmp/input-1.mp4"],
         { files := [("/tmp/input-0.mp4", "bytes of https://v.example/two.mp4"),
                     ("/tmp/input-1.mp4", "bytes of https://v.example/three.mp4")],
           searches := [] }) ∧
    (buildCommand ["/tmp/input-0.mp4", "/tmp/input-1.mp4"] ["one", "two", "three"] none none
        true "/app/public/videos/final-video-7.mp4").inputs[0]? = some "/tmp/input-0.mp4" ∧
    (buildCommand ["/tmp/input-0.mp4", "/tmp/input-1.mp4"] ["one", "two", "three"] none none
        true "/app/public/videos/final-video-7.mp4").complexFilter[1]?
      = some ⟨[.segBase 0], [.drawtext "one" (segmentStart 2 0) (segmentEnd 2 0)], .seg 0⟩ := by
  refine ⟨by rfl, by rfl, by rfl, by rfl, by rfl, by rfl, ?_⟩
  have h := buildCommand_segment ["/tmp/input-0.mp4", "/tmp/input-1.mp4"]
    ["one", "two", "three"] none none true "/app/public/videos/final-video-7.mp4" 0
    (by decide) 1 (by decide)
  rw [show 2 * 0 + 1 = 1 from rfl] at h
  rw [h]
  have he : escapeText "one" = "one" := by decide
  simp [segmentChains, truthy, he]

theorem unlink_absent (w : World) (path q : String) (h : q = path ∨ q ∉ w.paths) :
    q ∉ (w.unlink path).paths := by
  unfold World.unlink World.paths
  simp only [List.mem_map, List.mem_filter, not_exists, not_and]
  rintro ⟨p, c⟩ ⟨hmem, hne⟩ heq
  simp only at heq hne
  subst heq
  rcases h with h | h
  · simp [h] at hne
  · exact h (List.mem_map.mpr ⟨(p, c), hmem, rfl⟩)

theorem unlinkAll_absent (files : List String) :
    ∀ (w : World) (q : String), q ∈ files ∨ q ∉ w.paths → q ∉ (unlinkAll files w).paths := by
  induction files with
  | nil =>
    intro w q h
    rcases h with h | h
    · simp at h
    · exact h
  | cons f rest ih =>
    intro w q h
    show q ∉ (unlinkAll rest (w.unlink f)).paths
    apply ih
    rcases h with h | h
    · rcases List.mem_cons.mp h with h | h
      · exact Or.inr (unlink_absent w f q (Or.inl h))
      · exact Or.inl h
    · exact Or.inr (unlink_absent w f q (Or.inr h))

theorem unlinkVoice_absent (voice : Option String) (w : World) (q : String)
    (h : (truthy voice = true ∧ voice = some q) ∨ q ∉ w.paths) :
    q ∉ (unlinkVoice voice w).paths := by
  unfold unlinkVoice
  cases voice with
  | none =>
    rcases h with ⟨h, _⟩ | h
    · simp [truthy] at h
    · exact h
  | some path =>
    simp only
    split
    · apply unlink_absent
      rcases h with ⟨_, h⟩ | h
      · left; injection h with h; exact h.symm
      · right; exact h
    · rename_i hne
      rcases h with ⟨h, _⟩ | h
      · simp [truthy] at h hne; exact absurd hne h
      · exact h

/-- The success path releases the temporary files: when the promise
resolves, no downloaded clip and no voice file is left on disk. -/
theorem createVideoWithSubtitles_success_releases (env : Env)
    (videoUrls textOverlays : List String) (voice music : Option String)
    (includeSubtitles : Bool) (timestamp : Nat) (w w1 : World) (result : String)
    (h : createVideoWithSubtitles env videoUrls textOverlays voice music includeSubtitles
      timestamp w = (.ok result, w1)) :
    (∀ i, i < videoUrls.length → inputPath env i ∉ w1.paths) ∧
    (∀ path, truthy voice = true → voice = some path → path ∉ w1.paths) := by
  unfold createVideoWithSubtitles at h
  simp only at h
  rcases hd : downloadAll env videoUrls 0 [] w with ⟨res, w2⟩
  rw [hd] at h
  cases res with
  | error message => simp at h
  | ok downloadedFiles =>
    simp only at h
    obtain ⟨hfiles, -⟩ := downloadAll_ok env videoUrls 0 [] w downloadedFiles w2 hd
    split at h
    · simp at h
    · simp only [Prod.mk.injEq] at h
      obtain ⟨-, hw⟩ := h
      subst hw
      constructor
      · intro i hi
        apply unlinkVoice_absent
        right
        apply unlinkAll_absent
        left
        rw [hfiles]
        simp only [List.nil_append, List.mem_map, List.mem_range]
        exact ⟨i, hi, by simp⟩
      · intro path ht hv
        exact unlinkVoice_absent _ _ _ (Or.inl ⟨ht, hv⟩)

theorem createVideoWithSubtitles_success_releases_witness :
    createVideoWithSubtitles quietEnv ["https://v.example/0.mp4"] ["one"]
        (some "/tmp/voice-7.mp3") none false 7 worldWithVoice
      = (.ok "/videos/final-video-7.mp4",
         { files := [("/app/public/videos/final-video-7.mp4", "mp4 bytes")],
           searches := [] }) ∧
    inputPath quietEnv 0 ∉
      (World.paths { files := [("/app/public/videos/final-video-7.mp4", "mp4 bytes")],
                     searches := [] }) :=
  ⟨by rfl,
   (createVideoWithSubtitles_success_releases quietEnv ["https://v.example/0.mp4"] ["one"]
      (some "/tmp/voice-7.mp3") none false 7 worldWithVoice _ _ (by rfl)).1 0 (by decide)⟩

/-! ### Fallback chain of a script line -/

theorem pickFromPage_ne_empty (videos : Option (List PexelsVideo)) (url : String)
    (h : pickFromPage videos = some url) : url ≠ "" := by
  unfold pickFromPage at h
  cases videos with
  | none => simp at h
  | some vs =>
    simp only at h
    split at h
    · split at h
      · split at h
        · rename_i f hf
          have hq := (find?_some_mem _ _ _ hf).2
          simp only [hdWithLink, Bool.and_eq_true] at hq
          have ht := hq.2
          rw [h] at ht
          simpa [truthy] using ht
        · simp at h
      · simp at h
    · simp at h

theorem truthy_searchReturn (env : Env) (query : String) :
    truthy (searchReturn env query) = (searchReturn env query).isSome := by
  cases h : searchReturn env query with
  | none => rfl
  | some url =>
    have hne : url ≠ "" := by
      unfold searchReturn at h
      split at h
      · exact pickFromPage_ne_empty _ _ h
      · simp at h
    simp [truthy, hne]

theorem pexelsResult_eq (env : Env) (hkey : env.pexelsApiKey = true) (query : String) :
    pexelsResult env query = .ok (searchReturn env query) := by
  unfold pexelsResult searchReturn
  rw [if_neg (by simp [hkey])]
  cases env.pexelsSearch (query ++ " aesthetic") <;> rfl

theorem getPexelsVideoForLine_eq (env : Env) (hkey : env.pexelsApiKey = true) (query : String)
    (w : World) :
    getPexelsVideoForLine env query w = (.ok (searchReturn env query), w.logged [query]) := by
  unfold getPexelsVideoForLine
  rw [pexelsResult_eq env hkey]
  rfl

theorem logged_nil (w : World) : w.logged [] = w := by
  simp [World.logged]

theorem logged_logged (w : World) (a b : List String) :
    (w.logged a).logged b = w.logged (a ++ b) := by
  simp [World.logged]

theorem orChain_exhausted (env : Env) (hkey : env.pexelsApiKey = true) (queries : List String) :
    ∀ w, (∀ q ∈ queries, searchReturn env q = none) →
      orChain env queries w = (.ok none, w.logged queries) := by
  induction queries with
  | nil => intro w _; simp [orChain, logged_nil]
  | cons query rest ih =>
    intro w h
    have hq := h query (List.mem_cons_self _ _)
    simp only [orChain, getPexelsVideoForLine_eq env hkey, hq, truthy]
    rw [ih _ (fun q hmem => h q (List.mem_cons_of_mem _ hmem)), logged_logged]
    simp

theorem orChain_stops (env : Env) (hkey : env.pexelsApiKey = true) (pre : List String) :
    ∀ (w : World) (query : String) (rest : List String) (url : String),
      (∀ q ∈ pre, searchReturn env q = none) → searchReturn env query = some url →
      orChain env (pre ++ query :: rest) w = (.ok (some url), w.logged (pre ++ [query])) := by
  induction pre with
  | nil =>
    intro w query rest url _ hq
    have ht := truthy_searchReturn env query
    rw [hq] at ht
    simp only [List.nil_append, orChain, getPexelsVideoForLine_eq env hkey, hq, ht,
      Option.isSome_some, if_true]
  | cons p pre ih =>
    intro w query rest url hpre hq
    have hp := hpre p (List.mem_cons_self _ _)
    have hrec := ih (w.logged [p]) query rest url
      (fun q hmem => hpre q (List.mem_cons_of_mem _ hmem)) hq
    rw [logged_logged] at hrec
    simp only [List.cons_append, orChain, getPexelsVideoForLine_eq env hkey, hp, truthy,
      Bool.false_eq_true, if_false]
    exact hrec

theorem orChain_none_iff (env : Env) (hkey : env.pexelsApiKey = true) (queries : List String) :
    ∀ w, (orChain env queries w).1 = .ok none ↔ ∀ q ∈ queries, searchReturn env q = none := by
  induction queries with
  | nil => intro w; simp [orChain]
  | cons query rest ih =>
    intro w
    simp only [orChain, getPexelsVideoForLine_eq env hkey, truthy_searchReturn]
    cases hq : searchReturn env query with
    | none =>
      simp only [Option.isSome_none, Bool.false_eq_true, if_false, List.mem_cons,
        forall_eq_or_imp, hq, true_and]
      exact ih _
    | some url =>
      simp [hq]

/-- C11: once the keywords of a line are there, the resolver is invoked with
the keywords, then product and mood, then product and the word product, then
mood and the words lifestyle aesthetic, in this order; the first query that
returns a locator ends the chain and gives the asset of the line, and the line
has no asset exactly when all four queries return nothing. -/
theorem resolveLine_fallback_chain (env : Env) (product mood line answer : String) (w : World)
    (hai : env.generateAiContent (visualPrompt line product) = .ok answer)
    (hkey : env.pexelsApiKey = true) :
    (∀ pre query rest url,
      [jsTrim answer, product ++ " " ++ mood, product ++ " product",
        mood ++ " lifestyle aesthetic"] = pre ++ query :: rest →
      (∀ q ∈ pre, searchReturn env q = none) → searchReturn env query = some url →
      resolveLine env product mood line w
        = (.ok (some url), { w with searches := w.searches ++ (pre ++ [query]) })) ∧
    ((∀ q ∈ [jsTrim answer, product ++ " " ++ mood, product ++ " product",
          mood ++ " lifestyle aesthetic"], searchReturn env q = none) →
      resolveLine env product mood line w
        = (.ok none,
           { w with searches := w.searches ++
              [jsTrim answer, product ++ " " ++ mood, product ++ " product",
               mood ++ " lifestyle aesthetic"] })) ∧
    ((resolveLine env product mood line w).1 = .ok none ↔
      ∀ q ∈ [jsTrim answer, product ++ " " ++ mood, product ++ " product",
          mood ++ " lifestyle aesthetic"], searchReturn env q = none) := by
  have hres : resolveLine env product mood line w
      = orChain env [jsTrim answer, product ++ " " ++ mood, product ++ " product",
          mood ++ " lifestyle aesthetic"] w := by
    unfold resolveLine
    rw [hai]
    rfl
  rw [hres]
  refine ⟨?_, ?_, orChain_none_iff env hkey _ w⟩
  · intro pre query rest url hsplit hpre hq
    rw [hsplit]
    exact orChain_stops env hkey pre w query rest url hpre hq
  · intro hall
    exact orChain_exhausted env hkey _ w hall

theorem resolveLine_fallback_chain_witness :
    gapEnv.generateAiContent (visualPrompt "two" "Lamp") = .ok "kw two" ∧
    searchReturn gapEnv "kw two" = some "https://v.example/two.mp4" ∧
    resolveLine gapEnv "Lamp" "cozy" "two" emptyWorld
      = (.ok (some "https://v.example/two.mp4"), { files := [], searches := ["kw two"] }) ∧
    resolveLine gapEnv "Lamp" "cozy" "one" emptyWorld
      = (.ok none,
         { files := [],
           searches := ["kw one", "Lamp cozy", "Lamp product", "cozy lifestyle aesthetic"] }) :=
  ⟨by rfl, by rfl,
   (resolveLine_fallback_chain gapEnv "Lamp" "cozy" "two" "kw two" emptyWorld (by rfl)
      (by rfl)).1 [] "kw two" ["Lamp cozy", "Lamp product", "cozy lifestyle aesthetic"]
      "https://v.example/two.mp4" (by rfl) (by simp) (by rfl),
   (resolveLine_fallback_chain gapEnv "Lamp" "cozy" "one" "kw one" emptyWorld (by rfl)
      (by rfl)).2.1 (by
        intro q hq
        simp only [List.mem_cons, List.mem_singleton, List.not_mem_nil, or_false] at hq
        rcases hq with rfl | rfl | rfl | rfl <;> rfl)⟩

/-! ### Second fallback pass -/

theorem pushIfNew_cases (videoUrls : List String) (result : Option String) :
    pushIfNew videoUrls result = videoUrls ∨
    ∃ url, result = some url ∧ url ∉ videoUrls ∧ pushIfNew videoUrls result = videoUrls ++ [url] := by
  cases result with
  | none => left; rfl
  | some url =>
    by_cases h : (url != "" && !videoUrls.contains url) = true
    · right
      refine ⟨url, rfl, ?_, ?_⟩
      · simp at h
        exact h.2
      · show (if (url != "" && !videoUrls.contains url) = true then videoUrls ++ [url]
          else videoUrls) = videoUrls ++ [url]
        rw [if_pos h]
    · left
      show (if (url != "" && !videoUrls.contains url) = true then videoUrls ++ [url]
        else videoUrls) = videoUrls
      rw [if_neg h]

theorem pushIfNew_searchReturn (env : Env) (videoUrls : List String) (search : String) :
    (searchReturn env search = none ∧
      pushIfNew videoUrls (searchReturn env search) = videoUrls) ∨
    (∃ url, searchReturn env search = some url ∧ url ∈ videoUrls ∧
      pushIfNew videoUrls (searchReturn env search) = videoUrls) ∨
    (∃ url, searchReturn env search = some url ∧ url ∉ videoUrls ∧
      pushIfNew videoUrls (searchReturn env search) = videoUrls ++ [url]) := by
  have ht := truthy_searchReturn env search
  cases h : searchReturn env search with
  | none => left; exact ⟨rfl, rfl⟩
  | some url =>
    right
    rw [h] at ht
    have hne : (url != "") = true := by simpa [truthy] using ht
    by_cases hmem : url ∈ videoUrls
    · left
      refine ⟨url, rfl, hmem, ?_⟩
      show (if (url != "" && !videoUrls.contains url) = true then videoUrls ++ [url]
        else videoUrls) = videoUrls
      rw [if_neg (by simp [hmem])]
    · right
      refine ⟨url, rfl, hmem, ?_⟩
      show (if (url != "" && !videoUrls.contains url) = true then videoUrls ++ [url]
        else videoUrls) = videoUrls ++ [url]
      rw [if_pos (by simp [hmem, hne])]

theorem fallbackLoop_spec (env : Env) (hkey : env.pexelsApiKey = true) (searches : List String) :
    ∀ (acc : List String) (w : World),
      ∃ k added, k ≤ searches.length ∧
        fallbackLoop env searches acc w = (.ok (acc ++ added), w.logged (searches.take k)) ∧
        added.Nodup ∧
        (∀ u ∈ added, u ∉ acc ∧ ∃ q ∈ searches.take k, searchReturn env q = some u) ∧
        (k = searches.length ∨ 4 ≤ (acc ++ added).length) ∧
        (4 ≤ acc.length → k = 0 ∧ added = []) ∧
        (acc.length < 4 → searches ≠ [] → 1 ≤ k) ∧
        (acc.length < 4 → (acc ++ added).length ≤ 4 ∧
          ((acc ++ added).length = 4 → ∃ j q u, k = j + 1 ∧ searches[j]? = some q ∧
            searchReturn env q = some u ∧ (acc ++ added).getLast? = some u)) ∧
        (∀ q ∈ searches.take k, ∀ u, searchReturn env q = some u → u ∈ acc ++ added) ∧
        added.Sublist ((searches.take k).filterMap (searchReturn env)) := by
  induction searches with
  | nil =>
    intro acc w
    refine ⟨0, [], le_refl _, by simp [fallbackLoop, logged_nil], List.nodup_nil, by simp,
      Or.inl rfl, fun _ => ⟨rfl, rfl⟩, fun _ h => absurd rfl h, ?_, by simp, by simp⟩
    intro h
    simp only [List.append_nil]
    exact ⟨by omega, fun h4 => by omega⟩
  | cons s rest ih =>
    intro acc w
    by_cases h4 : 4 ≤ acc.length
    · refine ⟨0, [], Nat.zero_le _, ?_, List.nodup_nil, by simp, Or.inr (by simpa using h4),
        fun _ => ⟨rfl, rfl⟩, fun h => by omega, fun h => by omega, by simp, by simp⟩
      simp [fallbackLoop, h4, logged_nil]
    · have hlt : acc.length < 4 := by omega
      have hstep : fallbackLoop env (s :: rest) acc w
          = fallbackLoop env rest (pushIfNew acc (searchReturn env s)) (w.logged [s]) := by
        simp only [fallbackLoop, getPexelsVideoForLine_eq env hkey]
        rw [if_neg (by omega)]
      obtain ⟨k1, added1, hk1, hrun, hnodup, hadded, hstop, hfull, hone, hbound, hcomp, hsub⟩ :=
        ih (pushIfNew acc (searchReturn env s)) (w.logged [s])
      rw [logged_logged] at hrun
      have hthree := pushIfNew_searchReturn env acc s
      rcases pushIfNew_cases acc (searchReturn env s) with hsame | ⟨u, hu, hnew, hpush⟩
      · have hdup : ∀ v, searchReturn env s = some v → v ∈ acc := by
          intro v hv
          rcases hthree with ⟨hnone, -⟩ | ⟨u, hu, hmem, -⟩ | ⟨u, hu, -, hp⟩
          · rw [hnone] at hv; simp at hv
          · rw [hu] at hv; injection hv with hv; rw [← hv]; exact hmem
          · rw [hsame] at hp
            have := congrArg List.length hp
            simp at this
        rw [hsame] at hrun hadded hstop hfull hone hbound hcomp
        refine ⟨k1 + 1, added1, by simp; omega, ?_, hnodup, ?_, ?_, fun h => by omega,
          fun _ _ => by omega, ?_, ?_, ?_⟩
        · rw [hstep, hsame, hrun]
          simp
        · intro v hv
          obtain ⟨hv1, q, hq, hqv⟩ := hadded v hv
          exact ⟨hv1, q, by simp [List.take_succ_cons, hq], hqv⟩
        · rcases hstop with h | h
          · left; simp [h]
          · right; exact h
        · intro _
          obtain ⟨hle, hlast⟩ := hbound hlt
          refine ⟨hle, ?_⟩
          intro heq
          obtain ⟨j, q, v, hj, hq, hqv, hl⟩ := hlast heq
          exact ⟨j + 1, q, v, by omega, by simpa using hq, hqv, hl⟩
        · intro q hq v hv
          simp only [List.take_succ_cons, List.mem_cons] at hq
          rcases hq with rfl | hq
          · exact List.mem_append_left _ (hdup v hv)
          · exact hcomp q hq v hv
        · simp only [List.take_succ_cons, List.filterMap_cons]
          cases hs : searchReturn env s with
          | none => exact hsub
          | some v => exact List.Sublist.cons _ hsub
      · rw [hpush] at hrun hadded hstop hfull hone hbound hcomp
        have hlen1 : (acc ++ [u]).length = acc.length + 1 := by simp
        refine ⟨k1 + 1, u :: added1, by simp; omega, ?_, ?_, ?_, ?_, fun h => by omega,
          fun _ _ => by omega, ?_, ?_, ?_⟩
        · rw [hstep, hpush, hrun]
          simp
        · rw [List.nodup_cons]
          refine ⟨?_, hnodup⟩
          intro hmem
          exact (hadded u hmem).1 (by simp)
        · intro v hv
          rcases List.mem_cons.mp hv with rfl | hv
          · exact ⟨hnew, s, by simp [List.take_succ_cons], hu⟩
          · obtain ⟨hv1, q, hq, hqv⟩ := hadded v hv
            refine ⟨fun hmem => hv1 (by simp [hmem]), q, by simp [List.take_succ_cons, hq], hqv⟩
        · rcases hstop with h | h
          · left; simp [h]
          · right; simpa using h
        · intro _
          by_cases hfour : 4 ≤ (acc ++ [u]).length
          · obtain ⟨hk0, hadd0⟩ := hfull hfour
            subst hk0 hadd0
            refine ⟨by simp at hfour ⊢; omega, ?_⟩
            intro _
            exact ⟨0, s, u, rfl, by simp, hu, by simp⟩
          · obtain ⟨hle, hlast⟩ := hbound (by omega)
            refine ⟨by simpa using hle, ?_⟩
            intro heq
            obtain ⟨j, q, v, hj, hq, hqv, hl⟩ := hlast (by simpa using heq)
            exact ⟨j + 1, q, v, by omega, by simpa using hq, hqv, by simpa using hl⟩
        · intro q hq v hv
          simp only [List.take_succ_cons, List.mem_cons] at hq
          rcases hq with rfl | hq
          · rw [hu] at hv
            injection hv with hv
            simp [hv]
          · have := hcomp q hq v hv
            simpa using this
        · simp only [List.take_succ_cons, List.filterMap_cons, hu]
          exact List.Sublist.cons₂ _ hsub

/-- C12 (as stated, refuted): when the three lines resolve to one and the
same locator, one distinct locator is collected, yet the second pass does not
run: no generic query is sent. -/
theorem second_pass_skipped_with_one_distinct_locator :
    resolveAssets sameClipEnv "Lamp" "cozy" ["one", "two", "three"] emptyWorld
      = (.ok ["https://v.example/same.mp4", "https://v.example/same.mp4",
              "https://v.example/same.mp4"],
         { files := [], searches := ["keywords", "keywords", "keywords"] }) ∧
    (["https://v.example/same.mp4", "https://v.example/same.mp4",
      "https://v.example/same.mp4"] : List String).dedup.length = 1 :=
  ⟨by rfl, by decide⟩

/-- C12 (amended): after per-line resolution the second pass runs exactly
when fewer than three locators were collected, repetitions counted.  When it
runs it sends the generic queries in their listed order, at least the first
one; every locator returned by a query it sends is collected afterwards, the
appended locators are exactly the returned ones that were not yet collected,
each once and in the order of the queries; it never collects more than four,
and it stops either with the list exhausted or right after the query that
delivered the fourth locator. -/
theorem second_pass_below_three_collected (env : Env) (hkey : env.pexelsApiKey = true)
    (product mood : String) (lines : List String) (w w1 : World) (videoUrls : List String)
    (hres : resolveLines env product mood lines [] w = (.ok videoUrls, w1)) :
    (3 ≤ videoUrls.length → resolveAssets env product mood lines w = (.ok videoUrls, w1)) ∧
    (videoUrls.length < 3 →
      ∃ k added, 1 ≤ k ∧ k ≤ 5 ∧
        (resolveAssets env product mood lines w).2
          = { w1 with searches := w1.searches ++
                [product ++ " unboxing", mood ++ " product showcase", "lifestyle " ++ mood,
                 "modern aesthetic", "trending product"].take k } ∧
        (resolveAssets env product mood lines w).1
          = (if (videoUrls ++ added).length = 0 then .error noVideosError
             else .ok (videoUrls ++ added)) ∧
        added.Nodup ∧
        (∀ u ∈ added, u ∉ videoUrls ∧
          ∃ q ∈ [product ++ " unboxing", mood ++ " product showcase", "lifestyle " ++ mood,
                 "modern aesthetic", "trending product"].take k,
            searchReturn env q = some u) ∧
        (k = 5 ∨ (videoUrls ++ added).length = 4) ∧
        (videoUrls ++ added).length ≤ 4 ∧
        ((videoUrls ++ added).length = 4 →
          ∃ j q u, k = j + 1 ∧
            [product ++ " unboxing", mood ++ " product showcase", "lifestyle " ++ mood,
             "modern aesthetic", "trending product"][j]? = some q ∧
            searchReturn env q = some u ∧ (videoUrls ++ added).getLast? = some u) ∧
        (∀ q ∈ [product ++ " unboxing", mood ++ " product showcase", "lifestyle " ++ mood,
                "modern aesthetic", "trending product"].take k,
          ∀ u, searchReturn env q = some u → u ∈ videoUrls ++ added) ∧
        added.Sublist
          (([product ++ " unboxing", mood ++ " product showcase", "lifestyle " ++ mood,
             "modern aesthetic", "trending product"].take k).filterMap (searchReturn env))) := by
  constructor
  · intro h3
    unfold resolveAssets
    rw [hres]
    simp only
    rw [if_neg (by omega)]
    simp only
    rw [if_neg (by omega)]
  · intro hlt
    obtain ⟨k, added, hk, hrun, hnodup, hadded, hstop, -, hone, hbound, hcomp, hsub⟩ :=
      fallbackLoop_spec env hkey (fallbackSearches product mood) videoUrls w1
    have hass : resolveAssets env product mood lines w
        = (if (videoUrls ++ added).length = 0 then
            (.error noVideosError, w1.logged ((fallbackSearches product mood).take k))
           else (.ok (videoUrls ++ added), w1.logged ((fallbackSearches product mood).take k))) := by
      unfold resolveAssets
      rw [hres]
      simp only
      rw [if_pos hlt, hrun]
    obtain ⟨hle, hlast⟩ := hbound (by omega)
    refine ⟨k, added, hone (by omega) (by simp [fallbackSearches]), hk, ?_, ?_, hnodup, hadded,
      ?_, hle, hlast, hcomp, hsub⟩
    · rw [hass]
      split <;> rfl
    · rw [hass]
      split <;> rfl
    · rcases hstop with h | h
      · left; exact h
      · right; omega

theorem second_pass_below_three_collected_witness :
    resolveAssets sameClipEnv "Lamp" "cozy" ["one", "two", "three"] emptyWorld
      = (.ok ["https://v.example/same.mp4", "https://v.example/same.mp4",
              "https://v.example/same.mp4"],
         { files := [], searches := ["keywords", "keywords", "keywords"] }) ∧
    resolveAssets secondPassEnv "Lamp" "cozy" ["one", "two", "three"] emptyWorld
      = (.ok ["https://v.example/two.mp4", "https://v.example/three.mp4",
              "https://v.example/g1.mp4", "https://v.example/g2.mp4"],
         { files := [],
           searches := ["kw one", "Lamp cozy", "Lamp product", "cozy lifestyle aesthetic",
                        "kw two", "kw three", "Lamp unboxing", "cozy product showcase",
                        "lifestyle cozy"] }) ∧
    (∃ added, "https://v.example/g1.mp4" ∈ added ∧
      (resolveAssets secondPassEnv "Lamp" "cozy" ["one", "two", "three"] emptyWorld).1
        = .ok (["https://v.example/two.mp4", "https://v.example/three.mp4"] ++ added)) :=
  ⟨(second_pass_below_three_collected sameClipEnv (by rfl) "Lamp" "cozy"
      ["one", "two", "three"] emptyWorld _ _ (by rfl)).1 (by decide),
   by rfl,
   by
    obtain ⟨k, added, h1, -, -, hresult, -, -, -, -, -, hcomp, -⟩ :=
      (second_pass_below_three_collected secondPassEnv (by rfl) "Lamp" "cozy"
        ["one", "two", "three"] emptyWorld
        (resolveLines secondPassEnv "Lamp" "cozy" ["one", "two", "three"] [] emptyWorld).2
        ["https://v.example/two.mp4", "https://v.example/three.mp4"] (by rfl)).2 (by decide)
    have hq : "Lamp" ++ " unboxing" ∈
        ["Lamp" ++ " unboxing", "cozy" ++ " product showcase", "lifestyle " ++ "cozy",
         "modern aesthetic", "trending product"].take k := by
      obtain ⟨j, rfl⟩ : ∃ j, k = j + 1 := ⟨k - 1, by omega⟩
      simp [List.take_succ_cons]
    have hmem := hcomp _ hq "https://v.example/g1.mp4" (by rfl)
    have hadded : "https://v.example/g1.mp4" ∈ added := by
      rcases List.mem_append.mp hmem with h | h
      · exact absurd h (by decide)
      · exact h
    refine ⟨added, hadded, ?_⟩
    rw [hresult, if_neg]
    cases added with
    | nil => simp at hadded
    | cons a l => simp⟩

/-! ### A job for which nothing is found -/

theorem resolveLines_nothing_found (env : Env) (hkey : env.pexelsApiKey = true)
    (hnone : ∀ query, searchReturn env query = none) (product mood : String)
    (lines : List String) :
    ∀ (acc : List String) (w : World),
      (∀ line ∈ lines, ∃ answer, env.generateAiContent (visualPrompt line product) = .ok answer) →
      ∃ queries, resolveLines env product mood lines acc w = (.ok acc, w.logged queries) := by
  induction lines with
  | nil => intro acc w _; exact ⟨[], by simp [resolveLines, logged_nil]⟩
  | cons line rest ih =>
    intro acc w hai
    obtain ⟨answer, hanswer⟩ := hai line (List.mem_cons_self _ _)
    have hline : resolveLine env product mood line w
        = (.ok none, w.logged (lineQueries (jsTrim answer) product mood)) := by
      unfold resolveLine
      rw [hanswer]
      exact orChain_exhausted env hkey _ w (fun q _ => hnone q)
    obtain ⟨queries, hrest⟩ := ih acc (w.logged (lineQueries (jsTrim answer) product mood))
      (fun l hl => hai l (List.mem_cons_of_mem _ hl))
    refine ⟨lineQueries (jsTrim answer) product mood ++ queries, ?_⟩
    simp only [resolveLines, hline, pushIfTruthy]
    rw [hrest, logged_logged]

theorem fallbackLoop_nothing_found (env : Env) (hkey : env.pexelsApiKey = true)
    (hnone : ∀ query, searchReturn env query = none) (searches acc : List String) (w : World) :
    ∃ queries, fallbackLoop env searches acc w = (.ok acc, w.logged queries) := by
  obtain ⟨k, added, -, hrun, -, hadded, -⟩ := fallbackLoop_spec env hkey searches acc w
  have hnil : added = [] := by
    cases added with
    | nil => rfl
    | cons u rest =>
      obtain ⟨-, q, -, hq⟩ := hadded u (List.mem_cons_self _ _)
      rw [hnone q] at hq
      simp at hq
  subst hnil
  exact ⟨searches.take k, by simpa using hrun⟩

theorem resolveAssets_nothing_found (env : Env) (hkey : env.pexelsApiKey = true)
    (hnone : ∀ query, searchReturn env query = none) (product mood : String)
    (lines : List String) (w : World)
    (hai : ∀ line ∈ lines, ∃ answer,
      env.generateAiContent (visualPrompt line product) = .ok answer) :
    ∃ queries, resolveAssets env product mood lines w
      = (.error noVideosError, w.logged queries) := by
  obtain ⟨q1, h1⟩ := resolveLines_nothing_found env hkey hnone product mood lines [] w hai
  obtain ⟨q2, h2⟩ := fallbackLoop_nothing_found env hkey hnone (fallbackSearches product mood) []
    (w.logged q1)
  refine ⟨q1 ++ q2, ?_⟩
  unfold resolveAssets
  rw [h1]
  simp only [List.length_nil, Nat.lt_irrefl, Nat.zero_lt_succ, if_true]
  rw [h2]
  simp only [List.length_nil, if_true]
  rw [logged_logged]

/-- C13: when the script passes validation, the keywords of every line are
answered and every stock search returns nothing, the job fails with the
no-videos error, and the files on disk are the ones that were there before the
job: no clip was downloaded and no voice file was written. -/
theorem no_assets_job_fails_before_any_file (env : Env) (req : Request) (timestamp : Nat)
    (w : World) (fullScript : String) (textOverlays : List String)
    (hscript : env.generateEnhancedScript (finalProductName req) req.mood req.language
      = .ok fullScript)
    (hvalid : validateScript fullScript = .ok textOverlays)
    (hai : ∀ line ∈ textOverlays, ∃ answer,
      env.generateAiContent (visualPrompt line (finalProductName req)) = .ok answer)
    (hkey : env.pexelsApiKey = true)
    (hnone : ∀ query, searchReturn env query = none) :
    ∃ queries, generate env req timestamp w
      = (.failure
          { success := false,
            message :=
              "Video generation failed: Could not find any suitable videos for the product.",
            error := "Could not find any suitable videos for the product.",
            timestamp := timestamp },
         { files := w.files, searches := w.searches ++ queries }) := by
  obtain ⟨queries, hassets⟩ := resolveAssets_nothing_found env hkey hnone
    (finalProductName req) req.mood textOverlays w hai
  refine ⟨queries, ?_⟩
  have hrun : runJob env req timestamp w = (.error noVideosError, w.logged queries) := by
    unfold runJob
    simp only [hscript, hvalid, hassets]
  unfold generate
  rw [hrun]
  have hmsg : classifyError noVideosError
      = "Video generation failed: Could not find any suitable videos for the product." := by
    decide
  simp only [failureBody, hmsg]
  rfl

theorem no_assets_job_fails_before_any_file_witness :
    ∃ queries,
      generate quietEnv ⟨some "Lamp", none, "cozy", "English", "voice-and-music", true⟩ 7
          worldWithVoice
        = (.failure
            { success := false,
              message :=
                "Video generation failed: Could not find any suitable videos for the product.",
              error := "Could not find any suitable videos for the product.",
              timestamp := 7 },
           { files := worldWithVoice.files, searches := worldWithVoice.searches ++ queries }) :=
  no_assets_job_fails_before_any_file quietEnv
    ⟨some "Lamp", none, "cozy", "English", "voice-and-music", true⟩ 7 worldWithVoice
    "LINE: one\nLINE: two\nLINE: three" ["one", "two", "three"] (by rfl) (by rfl)
    (fun _ _ => ⟨"keywords", rfl⟩) (by rfl) (fun _ => rfl)

/-! ### Temporary paths of two jobs -/

theorem generateVoice_path (env : Env) (text language voiceId : String) (timestamp : Nat)
    (w w1 : World) (path : String)
    (h : generateVoice env text language voiceId timestamp w = (.ok path, w1)) :
    path = joinPath env.tmpdir ("voice-" ++ toString timestamp ++ ".mp3") := by
  unfold generateVoice at h
  split at h
  · simp only [Prod.mk.injEq, Except.ok.injEq] at h
    exact h.1.symm
  · simp at h

/-- The voice files of two jobs with different timestamps have different
paths. -/
theorem generateVoice_paths_distinct (env : Env) (text1 text2 language voiceId : String)
    (t1 t2 : Nat) (w1 w2 w1' w2' : World) (p1 p2 : String)
    (h1 : generateVoice env text1 language voiceId t1 w1 = (.ok p1, w1'))
    (h2 : generateVoice env text2 language voiceId t2 w2 = (.ok p2, w2'))
    (hne : t1 ≠ t2) : p1 ≠ p2 := by
  rw [generateVoice_path env _ _ _ _ _ _ _ h1, generateVoice_path env _ _ _ _ _ _ _ h2]
  intro heq
  unfold joinPath at heq
  have hdata := congrArg String.data heq
  simp only [String.data_append, List.append_assoc, List.append_cancel_left_eq,
    List.append_cancel_right_eq] at hdata
  exact hne (toString_nat_injective t1 t2 (String.ext hdata))

theorem generateVoice_paths_distinct_witness :
    generateVoice quietEnv "a." "English" "v" 7 emptyWorld
      = (.ok "/tmp/voice-7.mp3", { files := [("/tmp/voice-7.mp3", "mp3 bytes")], searches := [] }) ∧
    ("/tmp/voice-7.mp3" : String) ≠ "/tmp/voice-8.mp3" :=
  ⟨by rfl,
   generateVoice_paths_distinct quietEnv "a." "b." "English" "v" 7 8 emptyWorld emptyWorld _ _
     "/tmp/voice-7.mp3" "/tmp/voice-8.mp3" (by rfl) (by rfl) (by decide)⟩

/-- C14 (the code at the failing input): the clip paths carry no timestamp.
A job that has downloaded its first clip holds `/tmp/input-0.mp4`; the download
loop of a second job, whatever its timestamp, writes the same path and replaces
the content, and when the second job (timestamp 8) completes, its cleanup
removes the file, so the first job's clip is gone. -/
theorem jobs_write_the_same_clip_path :
    downloadAll quietEnv ["https://v.example/a.mp4"] 0 [] emptyWorld
      = (.ok ["/tmp/input-0.mp4"],
         { files := [("/tmp/input-0.mp4", "bytes of https://v.example/a.mp4")],
           searches := [] }) ∧
    downloadAll quietEnv ["https://v.example/b.mp4"] 0 []
        { files := [("/tmp/input-0.mp4", "bytes of https://v.example/a.mp4")], searches := [] }
      = (.ok ["/tmp/input-0.mp4"],
         { files := [("/tmp/input-0.mp4", "bytes of https://v.example/b.mp4")],
           searches := [] }) ∧
    createVideoWithSubtitles quietEnv ["https://v.example/b.mp4"] ["one"] none none false 8
        { files := [("/tmp/input-0.mp4", "bytes of https://v.example/a.mp4")], searches := [] }
      = (.ok "/videos/final-video-8.mp4",
         { files := [("/app/public/videos/final-video-8.mp4", "mp4 bytes")],
           searches := [] }) := by
  refine ⟨by rfl, by rfl, by rfl⟩

/-! ### Labels and inputs of the filter graph -/

theorem optionalInput_truthy (path : Option String) (h : truthy path = true) :
    ∃ p, path = some p ∧ optionalInput path = [p] := by
  cases path with
  | none => simp [truthy] at h
  | some p =>
    refine ⟨p, rfl, ?_⟩
    have hp : (p != "") = true := by simpa [truthy] using h
    simp [optionalInput, hp]

theorem optionalInput_falsy (path : Option String) (h : truthy path = false) :
    optionalInput path = [] := by
  cases path with
  | none => rfl
  | some p =>
    have hp : (p != "") = false := by simpa [truthy] using h
    simp [optionalInput, hp]

theorem buildCommand_video_length (downloadedFiles textOverlays : List String)
    (includeSubtitles : Bool) :
    ((List.range downloadedFiles.length).flatMap
        (segmentChains downloadedFiles.length textOverlays includeSubtitles) ++
      [concatChain downloadedFiles.length]).length = 2 * downloadedFiles.length + 1 := by
  rw [List.length_append, flatMap_pairs_length _ (segmentChains_length _ _ _)]
  rfl

theorem buildCommand_after_video (downloadedFiles textOverlays : List String)
    (voice music : Option String) (includeSubtitles : Bool) (outputPath : String) (j : Nat) :
    (buildCommand downloadedFiles textOverlays voice music includeSubtitles
        outputPath).complexFilter[2 * downloadedFiles.length + 1 + j]?
      = (audioChains downloadedFiles.length voice music)[j]? := by
  unfold buildCommand
  simp only
  have hlen := buildCommand_video_length downloadedFiles textOverlays includeSubtitles
  rw [List.getElem?_append_right (by omega), hlen]
  simp

theorem buildCommand_concat (downloadedFiles textOverlays : List String)
    (voice music : Option String) (includeSubtitles : Bool) (outputPath : String) :
    (buildCommand downloadedFiles textOverlays voice music includeSubtitles
        outputPath).complexFilter[2 * downloadedFiles.length]?
      = some (concatChain downloadedFiles.length) := by
  unfold buildCommand
  simp only
  have hlen := flatMap_pairs_length
    (segmentChains downloadedFiles.length textOverlays includeSubtitles)
    (segmentChains_length _ _ _) downloadedFiles.length
  rw [List.append_assoc, List.getElem?_append_right (by omega), hlen]
  simp

theorem buildCommand_inputs_after (downloadedFiles textOverlays : List String)
    (voice music : Option String) (includeSubtitles : Bool) (outputPath : String) (j : Nat) :
    (buildCommand downloadedFiles textOverlays voice music includeSubtitles
        outputPath).inputs[downloadedFiles.length + j]?
      = (optionalInput voice ++ optionalInput music)[j]? := by
  unfold buildCommand
  simp only
  rw [List.append_assoc, List.getElem?_append_right (by omega)]
  simp

/-- C15: in the built filter graph segment i reads video input i, which is
the i-th downloaded clip, and produces v_i; the concat chain declares n inputs
and reads v0, ..., v(n-1) in this order; the voice chain reads input n, which
is the voice file; the music chain reads input n+1 when there is a voice file
and input n when there is none, and that input is the music file. -/
theorem buildCommand_labels_match_inputs (downloadedFiles textOverlays : List String)
    (voice music : Option String) (includeSubtitles : Bool) (outputPath : String) :
    (∀ i, i < downloadedFiles.length →
      (buildCommand downloadedFiles textOverlays voice music includeSubtitles
          outputPath).inputs[i]? = downloadedFiles[i]? ∧
      (∃ filters,
        (buildCommand downloadedFiles textOverlays voice music includeSubtitles
            outputPath).complexFilter[2 * i]? = some ⟨[.videoIn i], filters, .segBase i⟩) ∧
      (∃ filters,
        (buildCommand downloadedFiles textOverlays voice music includeSubtitles
            outputPath).complexFilter[2 * i + 1]? = some ⟨[.segBase i], filters, .seg i⟩)) ∧
    (buildCommand downloadedFiles textOverlays voice music includeSubtitles
        outputPath).complexFilter[2 * downloadedFiles.length]?
      = some ⟨(List.range downloadedFiles.length).map Label.seg,
              [.concat downloadedFiles.length 1 0], .outv⟩ ∧
    (∀ i, i < downloadedFiles.length →
      ((List.range downloadedFiles.length).map Label.seg)[i]? = some (.seg i)) ∧
    (∀ voicePath, truthy voice = true → voice = some voicePath →
      (buildCommand downloadedFiles textOverlays voice music includeSubtitles
          outputPath).inputs[downloadedFiles.length]? = some voicePath ∧
      ∃ out,
        (buildCommand downloadedFiles textOverlays voice music includeSubtitles
            outputPath).complexFilter[2 * downloadedFiles.length + 1]?
          = some ⟨[.audioIn downloadedFiles.length], [.volume "1.0", .atrim 30], out⟩) ∧
    (∀ musicPath, truthy voice = true → truthy music = true → music = some musicPath →
      (buildCommand downloadedFiles textOverlays voice music includeSubtitles
          outputPath).inputs[downloadedFiles.length + 1]? = some musicPath ∧
      (buildCommand downloadedFiles textOverlays voice music includeSubtitles
          outputPath).complexFilter[2 * downloadedFiles.length + 2]?
        = some ⟨[.audioIn (downloadedFiles.length + 1)], [.volume "0.2", .atrim 30], .music⟩ ∧
      (buildCommand downloadedFiles textOverlays voice music includeSubtitles
          outputPath).complexFilter[2 * downloadedFiles.length + 3]?
        = some ⟨[.voice, .music], [.amix 2 "shortest"], .outa⟩) ∧
    (∀ musicPath, truthy voice = false → truthy music = true → music = some musicPath →
      (buildCommand downloadedFiles textOverlays voice music includeSubtitles
          outputPath).inputs[downloadedFiles.length]? = some musicPath ∧
      (buildCommand downloadedFiles textOverlays voice music includeSubtitles
          outputPath).complexFilter[2 * downloadedFiles.length + 1]?
        = some ⟨[.audioIn downloadedFiles.length], [.volume "0.3", .atrim 30], .outa⟩) := by
  refine ⟨?_, ?_, ?_, ?_, ?_, ?_⟩
  · intro i hi
    refine ⟨buildCommand_input _ _ _ _ _ _ i hi, ?_, ?_⟩
    · have h := buildCommand_segment downloadedFiles textOverlays voice music includeSubtitles
        outputPath i hi 0 (by decide)
      rw [Nat.add_zero] at h
      exact ⟨_, by rw [h]; rfl⟩
    · have h := buildCommand_segment downloadedFiles textOverlays voice music includeSubtitles
        outputPath i hi 1 (by decide)
      rw [h]
      by_cases hc : (includeSubtitles && truthy textOverlays[i]?) = true
      · exact ⟨[.drawtext (escapeText (textOverlays[i]?.getD ""))
            (segmentStart downloadedFiles.length i) (segmentEnd downloadedFiles.length i)],
          by simp [segmentChains, hc]⟩
      · exact ⟨[.copy], by simp [segmentChains, hc]⟩
  · rw [buildCommand_concat]
    rfl
  · intro i hi
    simp [hi]
  · intro voicePath hv hsome
    obtain ⟨p, hp, hin⟩ := optionalInput_truthy voice hv
    have hpe : p = voicePath := by rw [hp] at hsome; injection hsome
    subst hpe
    constructor
    · have h := buildCommand_inputs_after downloadedFiles textOverlays voice music
        includeSubtitles outputPath 0
      rw [Nat.add_zero] at h
      rw [h, hin]
      simp
    · have h := buildCommand_after_video downloadedFiles textOverlays voice music
        includeSubtitles outputPath 0
      rw [Nat.add_zero] at h
      rw [h]
      by_cases hm : truthy music = true
      · exact ⟨.voice, by simp [audioChains, hv, hm]⟩
      · exact ⟨.outa, by simp [audioChains, hv, hm]⟩
  · intro musicPath hv hm hsome
    obtain ⟨p, -, hin⟩ := optionalInput_truthy voice hv
    obtain ⟨q, hq, hinm⟩ := optionalInput_truthy music hm
    have hqe : q = musicPath := by rw [hq] at hsome; injection hsome
    subst hqe
    refine ⟨?_, ?_, ?_⟩
    · rw [buildCommand_inputs_after, hin, hinm]
      simp
    · have h := buildCommand_after_video downloadedFiles textOverlays voice music
        includeSubtitles outputPath 1
      rw [show 2 * downloadedFiles.length + 1 + 1 = 2 * downloadedFiles.length + 2 by omega] at h
      rw [h]
      simp [audioChains, hv, hm]
    · have h := buildCommand_after_video downloadedFiles textOverlays voice music
        includeSubtitles outputPath 2
      rw [show 2 * downloadedFiles.length + 1 + 2 = 2 * downloadedFiles.length + 3 by omega] at h
      rw [h]
      simp [audioChains, hv, hm]
  · intro musicPath hv hm hsome
    have hin := optionalInput_falsy voice hv
    obtain ⟨q, hq, hinm⟩ := optionalInput_truthy music hm
    have hqe : q = musicPath := by rw [hq] at hsome; injection hsome
    subst hqe
    constructor
    · have h := buildCommand_inputs_after downloadedFiles textOverlays voice music
        includeSubtitles outputPath 0
      rw [Nat.add_zero] at h
      rw [h, hin, hinm]
      simp
    · have h := buildCommand_after_video downloadedFiles textOverlays voice music
        includeSubtitles outputPath 0
      rw [Nat.add_zero] at h
      rw [h]
      simp [audioChains, hv, hm]

theorem buildCommand_labels_match_inputs_witness :
    truthy (some "/tmp/voice-7.mp3") = true ∧ truthy (some "/app/public/music/a.mp3") = true ∧
    (buildCommand ["/tmp/input-0.mp4", "/tmp/input-1.mp4"] ["one", "two"]
        (some "/tmp/voice-7.mp3") (some "/app/public/music/a.mp3") true "/out.mp4").inputs[3]?
      = some "/app/public/music/a.mp3" ∧
    (buildCommand ["/tmp/input-0.mp4", "/tmp/input-1.mp4"] ["one", "two"]
        (some "/tmp/voice-7.mp3") (some "/app/public/music/a.mp3") true
        "/out.mp4").complexFilter[6]?
      = some ⟨[.audioIn 3], [.volume "0.2", .atrim 30], .music⟩ :=
  have h := (buildCommand_labels_match_inputs ["/tmp/input-0.mp4", "/tmp/input-1.mp4"]
    ["one", "two"] (some "/tmp/voice-7.mp3") (some "/app/public/music/a.mp3") true
    "/out.mp4").2.2.2.2.1 "/app/public/music/a.mp3" (by decide) (by decide) rfl
  ⟨by decide, by decide, h.1, h.2.1⟩

/-! ### Segments of a job that reaches composition -/

theorem validateScript_length (fullScript : String) (lines : List String)
    (h : validateScript fullScript = .ok lines) : 3 ≤ lines.length ∧ lines.length ≤ 4 := by
  have hlen := parseScript_length fullScript
  unfold validateScript at h
  simp only at h
  split at h
  · simp at h
  · injection h with h
    subst h
    omega

theorem fallbackLoop_extends (env : Env) (searches : List String) :
    ∀ (acc : List String) (w : World) (result : List String) (w1 : World),
      fallbackLoop env searches acc w = (.ok result, w1) → ∃ added, result = acc ++ added := by
  induction searches with
  | nil =>
    intro acc w result w1 h
    simp only [fallbackLoop, Prod.mk.injEq, Except.ok.injEq] at h
    exact ⟨[], by simp [h.1]⟩
  | cons s rest ih =>
    intro acc w result w1 h
    simp only [fallbackLoop] at h
    split at h
    · simp only [Prod.mk.injEq, Except.ok.injEq] at h
      exact ⟨[], by simp [h.1]⟩
    · split at h
      · simp at h
      · rename_i r w2 _
        obtain ⟨added, hadded⟩ := ih _ _ _ _ h
        rcases pushIfNew_cases acc r with hsame | ⟨u, -, -, hpush⟩
        · rw [hsame] at hadded
          exact ⟨added, hadded⟩
        · rw [hpush] at hadded
          exact ⟨u :: added, by simp [hadded]⟩

theorem resolveAssets_ok_inv (env : Env) (product mood : String) (lines : List String)
    (w w1 : World) (videoUrls : List String)
    (h : resolveAssets env product mood lines w = (.ok videoUrls, w1)) :
    ∃ added, videoUrls = lines.filterMap (lineLocator env product mood) ++ added ∧
      (3 ≤ (lines.filterMap (lineLocator env product mood)).length → added = []) := by
  unfold resolveAssets at h
  rcases hl : resolveLines env product mood lines [] w with ⟨res, w0⟩
  rw [hl] at h
  cases res with
  | error message => simp at h
  | ok collected =>
    have hcollect := resolveLines_collect env product mood lines [] w collected w0 hl
    rw [List.nil_append] at hcollect
    simp only at h
    by_cases h3 : collected.length < 3
    · rw [if_pos h3] at h
      rcases hf : fallbackLoop env (fallbackSearches product mood) collected w0 with ⟨res2, w2⟩
      rw [hf] at h
      cases res2 with
      | error message => simp at h
      | ok result =>
        simp only at h
        obtain ⟨added, hadded⟩ := fallbackLoop_extends env _ _ _ _ _ hf
        split at h
        · simp at h
        · simp only [Prod.mk.injEq, Except.ok.injEq] at h
          refine ⟨added, ?_, ?_⟩
          · rw [← h.1, hadded, hcollect]
          · intro hge
            rw [← hcollect] at hge
            omega
    · rw [if_neg h3] at h
      simp only at h
      split at h
      · simp at h
      · simp only [Prod.mk.injEq, Except.ok.injEq] at h
        exact ⟨[], by rw [← h.1, hcollect]; simp, fun _ => rfl⟩

theorem createVideoWithSubtitles_ok_inv (env : Env) (videoUrls textOverlays : List String)
    (voice music : Option String) (includeSubtitles : Bool) (timestamp : Nat) (w w1 : World)
    (result : String)
    (h : createVideoWithSubtitles env videoUrls textOverlays voice music includeSubtitles
      timestamp w = (.ok result, w1)) :
    ∃ files w3 video,
      downloadAll env videoUrls 0 [] w = (.ok files, w3) ∧
      env.ffmpegRun (buildCommand files textOverlays voice music includeSubtitles
        (joinPath (joinPath (joinPath env.dirname "public") "videos")
          ("final-video-" ++ toString timestamp ++ ".mp4"))) = .ok video ∧
      w1 = unlinkVoice voice (unlinkAll files (w3.writeFile
        (joinPath (joinPath (joinPath env.dirname "public") "videos")
          ("final-video-" ++ toString timestamp ++ ".mp4")) video)) := by
  unfold createVideoWithSubtitles at h
  simp only at h
  rcases hd : downloadAll env videoUrls 0 [] w with ⟨res, w3⟩
  rw [hd] at h
  cases res with
  | error message => simp at h
  | ok files =>
    simp only at h
    split at h
    · simp at h
    · rename_i video hrun
      simp only [Prod.mk.injEq] at h
      exact ⟨files, w3, video, rfl, hrun, h.2.symm⟩

theorem runJob_ok_inv (env : Env) (req : Request) (timestamp : Nat) (w w1 : World)
    (body : SuccessBody) (h : runJob env req timestamp w = (.ok body, w1)) :
    ∃ videoUrls w2 voice w3 finalVideoUrl,
      env.generateEnhancedScript (finalProductName req) req.mood req.language = .ok body.script ∧
      validateScript body.script = .ok body.scriptLines ∧
      body.subtitles = req.includeSubtitles ∧
      resolveAssets env (finalProductName req) req.mood body.scriptLines w
        = (.ok videoUrls, w2) ∧
      prepareVoice env req body.scriptLines body.voice timestamp w2 = (.ok voice, w3) ∧
      createVideoWithSubtitles env (videoUrls.take 4) (body.scriptLines.take 4) voice
        (selectMusic env req.audioOption) req.includeSubtitles timestamp w3
        = (.ok finalVideoUrl, w1) := by
  unfold runJob at h
  simp only at h
  split at h
  · simp at h
  · rename_i fullScript hscript
    split at h
    · simp at h
    · rename_i textOverlays hvalid
      split at h
      · simp at h
      · rename_i videoUrls w2 hassets
        split at h
        · simp at h
        · rename_i voice w3 hvoice
          split at h
          · simp at h
          · rename_i finalVideoUrl w4 hcreate
            simp only [Prod.mk.injEq, Except.ok.injEq] at h
            obtain ⟨hbody, hw⟩ := h
            subst hbody hw
            exact ⟨videoUrls, w2, voice, w3, finalVideoUrl, hscript, hvalid, rfl, hassets,
              hvoice, hcreate⟩

/-- C4 (amended): in every job that reaches composition the captions are the
validated script lines and the locators handed to the composition are the
first four of the locators of the lines whose resolution succeeded, in line
order, followed by the additions of the second pass.  Segment i of the
command given to the render engine reads input i, the file written with the
bytes downloaded from the i-th of these locators, and carries caption i when
captions are enabled and line i is non-empty.  When the resolution of every
line succeeds, nothing is added and segment i shows the asset resolved for
script line i together with caption i. -/
theorem job_segments_follow_collection_order (env : Env) (req : Request) (timestamp : Nat)
    (w w' : World) (body : SuccessBody)
    (hjob : runJob env req timestamp w = (.ok body, w')) :
    ∃ (added urls : List String) (w1 : World) (voice : Option String) (w2 : World)
      (files : List String) (w3 : World) (command : FfmpegCommand) (video : String),
      validateScript body.script = .ok body.scriptLines ∧
      resolveAssets env (finalProductName req) req.mood body.scriptLines w
        = (.ok (body.scriptLines.filterMap (lineLocator env (finalProductName req) req.mood)
                ++ added), w1) ∧
      urls = (body.scriptLines.filterMap (lineLocator env (finalProductName req) req.mood)
                ++ added).take 4 ∧
      prepareVoice env req body.scriptLines body.voice timestamp w1 = (.ok voice, w2) ∧
      downloadAll env urls 0 [] w2 = (.ok files, w3) ∧
      command = buildCommand files body.scriptLines voice (selectMusic env req.audioOption)
        req.includeSubtitles
        (joinPath (joinPath (joinPath env.dirname "public") "videos")
          ("final-video-" ++ toString timestamp ++ ".mp4")) ∧
      env.ffmpegRun command = .ok video ∧
      w' = unlinkVoice voice (unlinkAll files (w3.writeFile
        (joinPath (joinPath (joinPath env.dirname "public") "videos")
          ("final-video-" ++ toString timestamp ++ ".mp4")) video)) ∧
      (∀ i url, urls[i]? = some url →
        command.inputs[i]? = some (inputPath env i) ∧
        (inputPath env i, downloaded env url) ∈ w3.files ∧
        command.complexFilter[2 * i]?
          = some ⟨[.videoIn i],
                  [.scale 1080 1920 "increase", .crop 1080 1920, .setsar 1,
                   .trim (segmentDuration urls.length)], .segBase i⟩ ∧
        command.complexFilter[2 * i + 1]?
          = some (if req.includeSubtitles && truthy body.scriptLines[i]? then
                    ⟨[.segBase i],
                     [.drawtext (escapeText (body.scriptLines[i]?.getD ""))
                        (segmentStart urls.length i) (segmentEnd urls.length i)], .seg i⟩
                  else ⟨[.segBase i], [.copy], .seg i⟩)) ∧
      ((∀ line ∈ body.scriptLines,
          (lineLocator env (finalProductName req) req.mood line).isSome = true) →
        added = [] ∧ urls.length = body.scriptLines.length ∧
        ∀ i (hi : i < body.scriptLines.length), ∃ url,
          lineLocator env (finalProductName req) req.mood body.scriptLines[i] = some url ∧
          command.inputs[i]? = some (inputPath env i) ∧
          (inputPath env i, downloaded env url) ∈ w3.files ∧
          command.complexFilter[2 * i]?
            = some ⟨[.videoIn i],
                    [.scale 1080 1920 "increase", .crop 1080 1920, .setsar 1,
                     .trim (segmentDuration body.scriptLines.length)], .segBase i⟩ ∧
          command.complexFilter[2 * i + 1]?
            = some (if req.includeSubtitles && truthy (some body.scriptLines[i]) then
                      ⟨[.segBase i],
                       [.drawtext (escapeText body.scriptLines[i])
                          (segmentStart body.scriptLines.length i)
                          (segmentEnd body.scriptLines.length i)], .seg i⟩
                    else ⟨[.segBase i], [.copy], .seg i⟩)) := by
  obtain ⟨videoUrls, w1, voice, w2, finalVideoUrl, -, hvalid, -, hassets, hvoice, hcreate⟩ :=
    runJob_ok_inv env req timestamp w w' body hjob
  obtain ⟨hlen3, hlen4⟩ := validateScript_length _ _ hvalid
  obtain ⟨added, hurls, hnone⟩ := resolveAssets_ok_inv env _ _ _ _ _ _ hassets
  rw [List.take_of_length_le hlen4] at hcreate
  obtain ⟨files, w3, video, hdl, hrun, hw⟩ :=
    createVideoWithSubtitles_ok_inv env _ _ _ _ _ _ _ _ _ hcreate
  obtain ⟨hfiles, hwritten⟩ := downloadAll_ok env (videoUrls.take 4) 0 [] w2 files w3 hdl
  rw [List.nil_append] at hfiles
  have hflen : files.length = (videoUrls.take 4).length := by rw [hfiles]; simp
  have hseg : ∀ i url, (videoUrls.take 4)[i]? = some url →
      (buildCommand files body.scriptLines voice (selectMusic env req.audioOption)
          req.includeSubtitles
          (joinPath (joinPath (joinPath env.dirname "public") "videos")
            ("final-video-" ++ toString timestamp ++ ".mp4"))).inputs[i]?
        = some (inputPath env i) ∧
      (inputPath env i, downloaded env url) ∈ w3.files ∧
      (buildCommand files body.scriptLines voice (selectMusic env req.audioOption)
          req.includeSubtitles
          (joinPath (joinPath (joinPath env.dirname "public") "videos")
            ("final-video-" ++ toString timestamp ++ ".mp4"))).complexFilter[2 * i]?
        = some ⟨[.videoIn i],
                [.scale 1080 1920 "increase", .crop 1080 1920, .setsar 1,
                 .trim (segmentDuration (videoUrls.take 4).length)], .segBase i⟩ ∧
      (buildCommand files body.scriptLines voice (selectMusic env req.audioOption)
          req.includeSubtitles
          (joinPath (joinPath (joinPath env.dirname "public") "videos")
            ("final-video-" ++ toString timestamp ++ ".mp4"))).complexFilter[2 * i + 1]?
        = some (if req.includeSubtitles && truthy body.scriptLines[i]? then
                  ⟨[.segBase i],
                   [.drawtext (escapeText (body.scriptLines[i]?.getD ""))
                      (segmentStart (videoUrls.take 4).length i)
                      (segmentEnd (videoUrls.take 4).length i)], .seg i⟩
                else ⟨[.segBase i], [.copy], .seg i⟩) := by
    intro i url hurl
    obtain ⟨hi, hget⟩ := List.getElem?_eq_some_iff.mp hurl
    have hi' : i < files.length := by omega
    refine ⟨?_, ?_, ?_, ?_⟩
    · rw [buildCommand_input _ _ _ _ _ _ i hi', hfiles, List.getElem?_map,
        List.getElem?_range hi]
      simp
    · have := (hwritten i hi).2
      rw [hget] at this
      simpa using this
    · have h := buildCommand_segment files body.scriptLines voice
        (selectMusic env req.audioOption) req.includeSubtitles
        (joinPath (joinPath (joinPath env.dirname "public") "videos")
          ("final-video-" ++ toString timestamp ++ ".mp4")) i hi' 0 (by decide)
      rw [Nat.add_zero] at h
      rw [h, hflen]
      rfl
    · have h := buildCommand_segment files body.scriptLines voice
        (selectMusic env req.audioOption) req.includeSubtitles
        (joinPath (joinPath (joinPath env.dirname "public") "videos")
          ("final-video-" ++ toString timestamp ++ ".mp4")) i hi' 1 (by decide)
      rw [h, hflen]
      rfl
  refine ⟨added, videoUrls.take 4, w1, voice, w2, files, w3, _, video, hvalid, ?_, ?_, hvoice,
    hdl, rfl, hrun, hw, hseg, ?_⟩
  · rw [← hurls]; exact hassets
  · rw [← hurls]
  · intro hall
    have hmap := filterMap_all_some (lineLocator env (finalProductName req) req.mood)
      body.scriptLines hall
    have hcl : (body.scriptLines.filterMap
        (lineLocator env (finalProductName req) req.mood)).length = body.scriptLines.length := by
      have := congrArg List.length hmap
      simpa using this
    have hadd : added = [] := hnone (by omega)
    have hvu : videoUrls = body.scriptLines.filterMap
        (lineLocator env (finalProductName req) req.mood) := by
      rw [hurls, hadd, List.append_nil]
    have htake : videoUrls.take 4 = videoUrls := List.take_of_length_le (by rw [hvu]; omega)
    have hvlen : videoUrls.length = body.scriptLines.length := by rw [hvu]; exact hcl
    refine ⟨hadd, by rw [htake]; exact hvlen, ?_⟩
    intro i hi
    have hiv : i < videoUrls.length := by omega
    have hline : lineLocator env (finalProductName req) req.mood body.scriptLines[i]
        = some videoUrls[i] := by
      have h1 : (videoUrls.map some)[i]? = (body.scriptLines.map
          (lineLocator env (finalProductName req) req.mood))[i]? := by
        rw [hvu]; rw [hmap]
      simp only [List.getElem?_map, List.getElem?_eq_getElem hiv, List.getElem?_eq_getElem hi,
        Option.map_some'] at h1
      injection h1 with h1
      exact h1.symm
    have hget : (videoUrls.take 4)[i]? = some videoUrls[i] := by
      rw [htake]; exact List.getElem?_eq_getElem hiv
    obtain ⟨h1, h2, h3, h4⟩ := hseg i videoUrls[i] hget
    refine ⟨videoUrls[i], hline, h1, h2, ?_, ?_⟩
    · rw [h3, htake, hvlen]
    · rw [h4, htake, hvlen]
      simp [List.getElem?_eq_getElem hi]

theorem job_segments_follow_collection_order_witness :
    runJob threeClipsEnv ⟨some "Lamp", none, "cozy", "English", "music", true⟩ 7 emptyWorld
      = (.ok { videoUrl := "http://localhost:3001/videos/final-video-7.mp4",
               script := "LINE: one\nLINE: two\nLINE: three",
               scriptLines := ["one", "two", "three"],
               voice := "21m00Tcm4TlvDq8ikWAM", mood := "cozy", subtitles := true },
         { files := [("/app/public/videos/final-video-7.mp4", "mp4 bytes")],
           searches := ["kw one", "kw two", "kw three"] }) ∧
    lineLocator threeClipsEnv "Lamp" "cozy" "two" = some "https://v.example/two.mp4" ∧
    ∃ (command : FfmpegCommand) (w3 : World),
      threeClipsEnv.ffmpegRun command = .ok "mp4 bytes" ∧
      command.inputs[1]? = some "/tmp/input-1.mp4" ∧
      ("/tmp/input-1.mp4", "bytes of https://v.example/two.mp4") ∈ w3.files ∧
      command.complexFilter[3]?
        = some ⟨[.segBase 1], [.drawtext "two" (segmentStart 3 1) (segmentEnd 3 1)], .seg 1⟩ := by
  have hjob : runJob threeClipsEnv ⟨some "Lamp", none, "cozy", "English", "music", true⟩ 7
      emptyWorld
      = (.ok { videoUrl := "http://localhost:3001/videos/final-video-7.mp4",
               script := "LINE: one\nLINE: two\nLINE: three",
               scriptLines := ["one", "two", "three"],
               voice := "21m00Tcm4TlvDq8ikWAM", mood := "cozy", subtitles := true },
         { files := [("/app/public/videos/final-video-7.mp4", "mp4 bytes")],
           searches := ["kw one", "kw two", "kw three"] }) := by rfl
  have hline : lineLocator threeClipsEnv "Lamp" "cozy" "two"
      = some "https://v.example/two.mp4" := by rfl
  refine ⟨hjob, hline, ?_⟩
  obtain ⟨added, urls, w1, voice, w2, files, w3, command, video, -, -, -, -, -, -, -, -, -, hall⟩ :=
    job_segments_follow_collection_order threeClipsEnv _ 7 emptyWorld _ _ hjob
  obtain ⟨-, -, hseg⟩ := hall (by
    intro line h
    simp only [List.mem_cons, List.mem_singleton, List.not_mem_nil, or_false] at h
    rcases h with rfl | rfl | rfl <;> rfl)
  obtain ⟨url, hloc, hin, hfile, -, hcap⟩ := hseg 1 (by decide)
  have hurl : url = "https://v.example/two.mp4" := by
    have h : some url = some "https://v.example/two.mp4" := hloc.symm.trans hline
    injection h
  subst hurl
  exact ⟨command, w3, rfl, hin, hfile, hcap⟩

end TiktokGen
